import Mathlib

/-!
Verification of the Tilda-to-Bitrix24 bridge (`app/main.py`, `app/mapping.py`)
against its natural-language specification.

The Python source is shallowly embedded: pure helpers become Lean functions,
the CRM/disk collaborators become explicit oracle records (`Lookups`, `Muts`),
and externally visible side effects (CRM writes, uploads, audit-log records)
are collected in an `Act` trace.  The settings object of `app/config.py`
becomes the explicit `Settings` record; note that `contact_company_fields`,
`bitrix_company_fields` and `bitrix_linesheet_file_field` are referenced by
`app/main.py` but never declared in `app/config.py`, so they are modelled as
configured values, which is the unambiguous intent.
-/

/-! ## Character and string helpers

Python string primitives (`str.strip`, `str.lower`, `re.split`, `in`)
re-implemented by structural recursion on character lists so that they
evaluate inside the kernel. -/

/-- Whitespace characters recognised by Python's `str.strip()` (ASCII part;
the source never feeds other Unicode whitespace to `strip`). -/
def pyWS (c : Char) : Bool :=
  c = ' ' || c = '\t' || c = '\n' || c = '\r' || c = '\x0b' || c = '\x0c'

/-- `str.strip()` on a character list. -/
def trimChars (cs : List Char) : List Char :=
  ((cs.dropWhile pyWS).reverse.dropWhile pyWS).reverse

/-- `str.strip()`. -/
def pyStrip (s : String) : String := String.mk (trimChars s.toList)

/-- The delimiter class of `re.split(r"[;,/]+", token)` in
`extract_participation_types` (main.py:394). -/
def isDelim (c : Char) : Bool := c = ';' || c = ',' || c = '/'

/-- Split a character list at every delimiter character.  `re.split` with a
`+`-quantified class merges delimiter runs; splitting at single delimiters
instead produces extra empty groups, which the caller discards after
stripping, so the observable result is identical. -/
def splitChars (p : Char → Bool) : List Char → List (List Char)
  | [] => [[]]
  | c :: rest =>
    let r := splitChars p rest
    if p c then [] :: r
    else match r with
      | [] => [[c]]
      | g :: gs => (c :: g) :: gs

/-- `needle` is a prefix of `hay` (Python list/str prefix test). -/
def isPre (needle hay : List Char) : Bool :=
  match needle, hay with
  | [], _ => true
  | _ :: _, [] => false
  | n :: ns, h :: hs => n == h && isPre ns hs

/-- Python's substring containment `needle in hay`. -/
def isSub (needle hay : List Char) : Bool :=
  isPre needle hay ||
    match hay with
    | [] => false
    | _ :: hs => isSub needle hs

/-- Python's `str.lower()` restricted to the alphabets the source exercises:
ASCII `A`-`Z` and Cyrillic `А`-`Я`/`Ё` (the participation vocabulary is
Cyrillic).  Other characters are left unchanged. -/
def pyLowerChar (c : Char) : Char :=
  let n := c.toNat
  if 65 ≤ n ∧ n ≤ 90 then Char.ofNat (n + 32)
  else if 0x410 ≤ n ∧ n ≤ 0x42F then Char.ofNat (n + 32)
  else if n = 0x401 then Char.ofNat 0x451
  else c

/-- `str.lower()` on a whole string. -/
def pyLower (s : String) : String := String.mk (s.toList.map pyLowerChar)

/-- main.py:222 `normalize_phone`: keep only digits and `+`, rewrite a
leading `+7` to `7`, and rewrite a leading `8` of an 11-digit number to `7`. -/
def normalize_phone (v : String) : String :=
  let ds := v.toList.filter (fun c => c.isDigit || c = '+')
  let ds := if ds.take 2 = ['+', '7'] then '7' :: ds.drop 2 else ds
  let ds :=
    if ds.take 1 = ['8'] ∧ ds.length = 11 then '7' :: ds.drop 1 else ds
  String.mk ds

/-! ## The Python value model

Form payload entries and mapping-file JSON are Python objects; `JVal` covers
the shapes the source can see: `None`, `str`, `int`, `bool`, `list`, `dict`,
and a residual `other` for any remaining object. -/

/-- A Python/JSON value as handled by the source. -/
inductive JVal where
  | null
  | s (v : String)
  | i (n : Int)
  | b (v : Bool)
  | l (xs : List JVal)
  | obj (kvs : List (String × JVal))
  | other

/-- Python truthiness of a `JVal` (`None`, `""`, `0`, `False`, `[]`, `{}` are
falsy; a residual object is truthy). -/
def jTruthy : JVal → Bool
  | .null => false
  | .s v => v ≠ ""
  | .i n => n ≠ 0
  | .b v => v
  | .l xs => !xs.isEmpty
  | .obj kvs => !kvs.isEmpty
  | .other => true

/-- Python `str(value)`.  Primitives are rendered exactly; the rendering of
lists/dicts/objects is only a placeholder — the source never stringifies a
composite value in any behaviour a claim depends on. -/
def pyStr : JVal → String
  | .null => "None"
  | .s v => v
  | .i n => toString n
  | .b true => "True"
  | .b false => "False"
  | .l _ => "[...]"
  | .obj _ => "{...}"
  | .other => "<object>"

/-- An ordered string-keyed dictionary (Python `dict` preserves insertion
order; keys are unique in every dict the source builds). -/
abbrev JDict := List (String × JVal)

/-- `d[k]` lookup returning `none` when absent. -/
def dictFind (d : JDict) (k : String) : Option JVal :=
  match d.find? (fun kv => kv.1 = k) with
  | some kv => some kv.2
  | none => none

/-- Python `dict.get(k)`: missing keys yield `None`. -/
def pyGet (d : JDict) (k : String) : JVal :=
  match dictFind d k with
  | some v => v
  | none => .null

/-- Python `dict.get(k, default)`. -/
def pyGetD (d : JDict) (k : String) (dflt : JVal) : JVal :=
  match dictFind d k with
  | some v => v
  | none => dflt

/-- `k in d`. -/
def hasKey (d : JDict) (k : String) : Bool := d.any (fun kv => kv.1 = k)

/-- `d[k] = v`: update in place if the key exists (keeping its position),
else append — Python dict assignment semantics. -/
def dictSet (d : JDict) (k : String) (v : JVal) : JDict :=
  if hasKey d k then d.map (fun kv => if kv.1 = k then (k, v) else kv)
  else d ++ [(k, v)]

/-- `d.setdefault(k, v)` restricted to its effect on the mapping. -/
def dictSetdefault (d : JDict) (k : String) (v : JVal) : JDict :=
  if hasKey d k then d else d ++ [(k, v)]

/-- Ordered string-to-string map (parsed mapping-file field maps). -/
abbrev SDict := List (String × String)

/-- Lookup in a string-to-string map (`dict.get`). -/
def sFind (d : SDict) (k : String) : Option String :=
  match d.find? (fun kv => kv.1 = k) with
  | some kv => some kv.2
  | none => none

/-- `d[k] = v` for string-to-string maps. -/
def sSet (d : SDict) (k : String) (v : String) : SDict :=
  if d.any (fun kv => kv.1 = k) then
    d.map (fun kv => if kv.1 = k then (k, v) else kv)
  else d ++ [(k, v)]

/-- Truthiness of an optional string (Python `if x:` on a `str | None`). -/
def optTruthy : Option String → Bool
  | some s => s ≠ ""
  | none => false

/-! ## Submission normalizer (main.py:170) -/

/-- Drops the entries of a normalized list that compare equal to `None`,
`""` or `[]` (main.py:178, the comprehension filter). -/
def dropEmptyNorm (o : Option JVal) : Option JVal :=
  match o with
  | none => none
  | some (.s "") => none
  | some (.l []) => none
  | some y => some y

mutual

/-- main.py:170 `normalize_value`: `None` stays absent, strings are stripped
to absent-if-empty, lists are normalized recursively with entries equal to
`None`/`""`/`[]` dropped and an empty result collapsing to absent; any other
value is returned unchanged. -/
def normalize_value : JVal → Option JVal
  | .null => none
  | .s v => let t := pyStrip v; if t = "" then none else some (.s t)
  | .l xs =>
    let ys := (normalize_each xs).filterMap dropEmptyNorm
    if ys.isEmpty then none else some (.l ys)
  | .i n => some (.i n)
  | .b v => some (.b v)
  | .obj kvs => some (.obj kvs)
  | .other => some .other

/-- `[normalize_value(item) for item in value]` (main.py:177). -/
def normalize_each : List JVal → List (Option JVal)
  | [] => []
  | x :: xs => normalize_value x :: normalize_each xs

end

/-- The form payload: Python `Dict[str, Any]` built by `parse_form_data`. -/
abbrev Payload := JDict

/-- `normalize_value(payload.get(key))` — the idiom used throughout
`extract_first` / `extract_list` / `build_*` (missing key gives `None`). -/
def normGet (p : Payload) (k : String) : Option JVal :=
  normalize_value (pyGet p k)

/-! ## Payload extraction helpers (main.py:196, main.py:209) -/

/-- main.py:196 `extract_first`: first normalized value among `keys`; a list
value contributes its re-normalized first element when that is truthy,
otherwise the key is skipped; a scalar value is stringified and returned. -/
def extract_first (p : Payload) : List String → Option String
  | [] => none
  | k :: rest =>
    match normGet p k with
    | some (.l xs) =>
      match xs with
      | [] => extract_first p rest
      | x :: _ =>
        match normalize_value x with
        | some e => if jTruthy e then some (pyStr e) else extract_first p rest
        | none => extract_first p rest
    | some v => some (pyStr v)
    | none => extract_first p rest

/-- main.py:209 `extract_list`: concatenates, over `keys`, the truthy
entries of list values and any scalar value, each stringified. -/
def extract_list (p : Payload) : List String → List String
  | [] => []
  | k :: rest =>
    let here :=
      match normGet p k with
      | some (.l xs) => (xs.filter jTruthy).map pyStr
      | some v => [pyStr v]
      | none => []
    here ++ extract_list p rest

/-! ## Configuration (app/config.py) and mapping model (app/mapping.py) -/

/-- The settings consumed by the embedded code paths (`app/config.py`).
`contact_company_fields`, `bitrix_company_fields` and
`bitrix_linesheet_file_field` are referenced by `app/main.py` but missing
from `app/config.py`; they are modelled as ordinary configured values. -/
structure Settings where
  bitrix_category_base_id : Int
  bitrix_category_applications_id : Int
  bitrix_stage_base_won : String
  bitrix_stage_applications_new : String
  bitrix_show_file_field : String
  bitrix_market_file_field : String
  bitrix_linesheet_file_field : String
  bitrix_inn_field : String
  bitrix_title_field : String
  bitrix_company_fields : List String
  contact_company_fields : List String
  participation_keywords : List String

/-- The defaults of `app/config.py` (the three fields missing from
`app/config.py` get inert defaults here; every theorem that depends on them
quantifies over the settings instead). -/
def defaultSettings : Settings :=
  { bitrix_category_base_id := 6
    bitrix_category_applications_id := 8
    bitrix_stage_base_won := "C6:WON"
    bitrix_stage_applications_new := "C8:NEW"
    bitrix_show_file_field := "UF_CRM_1764235976815"
    bitrix_market_file_field := "UF_CRM_1764236005770"
    bitrix_linesheet_file_field := ""
    bitrix_inn_field := "UF_INN"
    bitrix_title_field := "TITLE"
    bitrix_company_fields := []
    contact_company_fields := []
    participation_keywords := ["Показ", "Маркет", "Шоурум"] }

/-- mapping.py:11 `SearchFields`. -/
structure SearchFields where
  inn_keys : List String
  company_keys : List String
  phone_keys : List String
  email_keys : List String

/-- mapping.py:19 `FormMapping` (field maps as ordered association lists). -/
structure FormMapping where
  name : String
  deal_fields : SDict
  contact_fields : SDict
  kind : String
  participation_field : Option String
  file_field_map : SDict
  search : SearchFields

/-- mapping.py:29 `FormMapping.deal_field_for_bitrix`: the submission keys
whose mapped CRM field equals `bitrix_field`. -/
def deal_field_for_bitrix (m : FormMapping) (bitrix_field : String) : List String :=
  (m.deal_fields.filter (fun kv => kv.2 = bitrix_field)).map (fun kv => kv.1)

/-- mapping.py:32 `FormMapping.contact_field_for_bitrix`. -/
def contact_field_for_bitrix (m : FormMapping) (bitrix_field : String) : List String :=
  (m.contact_fields.filter (fun kv => kv.2 = bitrix_field)).map (fun kv => kv.1)

/-! ## Search values (main.py:41, main.py:230) -/

/-- main.py:41 `SearchValues`. -/
structure SearchValues where
  inn : Option String
  company : Option String
  phones : List String
  emails : List String

/-- main.py:230 `build_search_values`. -/
def build_search_values (m : FormMapping) (p : Payload) : SearchValues :=
  { inn := extract_first p m.search.inn_keys
    company := extract_first p m.search.company_keys
    phones := (extract_list p m.search.phone_keys).map normalize_phone
    emails := extract_list p m.search.email_keys }

/-! ## Participation-category extraction (main.py:384) -/

/-- One keyword test of main.py:400: `keyword.lower() in cleaned.lower()` —
case-insensitive substring containment. -/
def keywordMatches (keyword cleaned : String) : Bool :=
  isSub (pyLower keyword).toList (pyLower cleaned).toList

/-- The inner keyword loop of main.py:399: append each matching keyword not
yet collected (first-seen deduplication). -/
def addKeywords (keywords : List String) (cleaned : String) (values : List String) : List String :=
  keywords.foldl
    (fun vs kw =>
      if keywordMatches kw cleaned && !(vs.contains kw) then vs ++ [kw] else vs)
    values

/-- The token list of main.py:389: a list value keeps its truthy entries
stringified, a string value is the single token, anything else yields no
tokens. -/
def participation_tokens (m : FormMapping) (p : Payload) : List String :=
  let fieldName :=
    match m.participation_field with
    | some f => if f = "" then "format" else f
    | none => "format"
  match pyGet p fieldName with
  | .l xs => (xs.filter jTruthy).map pyStr
  | .s v => [v]
  | _ => []

/-- The cleaned split parts of main.py:394: each token is split on `[;,/]`,
stripped, and empty parts are skipped. -/
def cleaned_parts (m : FormMapping) (p : Payload) : List String :=
  (participation_tokens m p).flatMap
    (fun tok =>
      ((splitChars isDelim tok.toList).map (fun cs => String.mk (trimChars cs))).filter
        (fun s => s ≠ ""))

/-- main.py:384 `extract_participation_types`: the nested
token/part/keyword loops, flattened into folds over the cleaned parts. -/
def extract_participation_types (cfg : Settings) (m : FormMapping) (p : Payload) : List String :=
  (cleaned_parts m p).foldl
    (fun vs cleaned => addKeywords cfg.participation_keywords cleaned vs) []

/-! ## Mapping-file parsing (mapping.py:42-106) -/

/-- Is the value a string? (`isinstance(value, str)`). -/
def isStrJ : JVal → Bool
  | .s _ => true
  | _ => false

/-- Is the value a dict? (`isinstance(value, dict)`). -/
def isObjJ : JVal → Bool
  | .obj _ => true
  | _ => false

/-- Python `a or b` evaluated on values (keeps `a` when truthy). -/
def jor (a b : JVal) : JVal := if jTruthy a then a else b

/-- The dict comprehension `{str(k): str(v) for k, v in d.items() if
isinstance(v, str)}` used by mapping.py:79 and mapping.py:99-103. -/
def strPairs (kvs : List (String × JVal)) : SDict :=
  kvs.filterMap (fun kv =>
    match kv.2 with
    | .s v => some (kv.1, v)
    | _ => none)

/-- mapping.py:42 `MappingStore._normalize_sequence`: `None` becomes `()`;
a string becomes a one-element tuple; an iterable keeps its string elements
(iterating a dict yields its keys); anything else raises `ValueError`. -/
def normalize_sequence : JVal → Except String (List String)
  | .null => .ok []
  | .s v => .ok [v]
  | .l xs => .ok (xs.filterMap (fun x => match x with | .s v => some v | _ => none))
  | .obj kvs => .ok (kvs.map (fun kv => kv.1))
  | _ => .error "Search field configuration must be string or iterable of strings"

/-- `config.get(key)` inside `_build_search_fields`; a non-dict `config`
raises `AttributeError` in Python, modelled as an error result. -/
def cfgGetJ (config : JVal) (k : String) : Except String JVal :=
  match config with
  | .obj kvs => .ok (pyGet kvs k)
  | _ => .error "AttributeError: get"

/-- mapping.py:55 `MappingStore._build_search_fields`: each of the four key
lists comes from the `search` config when present, else from a reverse
lookup of the relevant CRM field in the parsed field maps. -/
def build_search_fields (cfg : Settings) (m : FormMapping) (config : JVal) :
    Except String SearchFields :=
  match cfgGetJ config "inn" with
  | .error e => .error e
  | .ok rawInn =>
    match normalize_sequence rawInn with
    | .error e => .error e
    | .ok innKeys0 =>
      let innKeys := if innKeys0.isEmpty then deal_field_for_bitrix m cfg.bitrix_inn_field else innKeys0
      match cfgGetJ config "company" with
      | .error e => .error e
      | .ok rawCompany =>
        match normalize_sequence rawCompany with
        | .error e => .error e
        | .ok companyKeys0 =>
          let companyKeys := if companyKeys0.isEmpty then deal_field_for_bitrix m cfg.bitrix_title_field else companyKeys0
          match cfgGetJ config "phone" with
          | .error e => .error e
          | .ok rawPhone =>
            match normalize_sequence rawPhone with
            | .error e => .error e
            | .ok phoneKeys0 =>
              let phoneKeys := if phoneKeys0.isEmpty then contact_field_for_bitrix m "PHONE" else phoneKeys0
              match cfgGetJ config "email" with
              | .error e => .error e
              | .ok rawEmail =>
                match normalize_sequence rawEmail with
                | .error e => .error e
                | .ok emailKeys0 =>
                  let emailKeys := if emailKeys0.isEmpty then contact_field_for_bitrix m "EMAIL" else emailKeys0
                  .ok { inn_keys := innKeys, company_keys := companyKeys,
                        phone_keys := phoneKeys, email_keys := emailKeys }

/-- mapping.py:75 `MappingStore._parse_form`: a non-dict entry is rejected;
a non-empty all-string-valued dict parses as a legacy flat deal-field map;
any other dict parses as the structured shape with optional
`deal_fields`/`fields`, `contact_fields`/`contact`, `kind`,
`participation_field`, `file_fields`/`attachments` and `search` keys,
rejecting truthy non-dict field maps. -/
def parse_form (cfg : Settings) (name : String) (raw : JVal) : Except String FormMapping :=
  match raw with
  | .obj kvs =>
    if !kvs.isEmpty && kvs.all (fun kv => isStrJ kv.2) then
      let m : FormMapping :=
        { name := name
          deal_fields := strPairs kvs
          contact_fields := []
          kind := "primary"
          participation_field := none
          file_field_map := []
          search := { inn_keys := [], company_keys := [], phone_keys := [], email_keys := [] } }
      (build_search_fields cfg m (.obj [])).map (fun sf => { m with search := sf })
    else
      let dealRaw := jor (pyGet kvs "deal_fields") (jor (pyGet kvs "fields") (.obj []))
      match dealRaw with
      | .obj dfkvs =>
        let contactRaw := jor (pyGet kvs "contact_fields") (jor (pyGet kvs "contact") (.obj []))
        if jTruthy contactRaw && !isObjJ contactRaw then
          .error ("Form " ++ name ++ " contact_fields must be an object")
        else
          let kind := pyStr (pyGetD kvs "kind" (.s "primary"))
          let participationField :=
            match pyGet kvs "participation_field" with
            | .null => none
            | v => some (pyStr v)
          let fileRaw := jor (pyGet kvs "file_fields") (jor (pyGet kvs "attachments") (.obj []))
          if jTruthy fileRaw && !isObjJ fileRaw then
            .error ("Form " ++ name ++ " file_fields must be an object")
          else
            let contactPairs := match contactRaw with | .obj ckvs => strPairs ckvs | _ => []
            let filePairs := match fileRaw with | .obj fkvs => strPairs fkvs | _ => []
            let m : FormMapping :=
              { name := name
                deal_fields := strPairs dfkvs
                contact_fields := contactPairs
                kind := kind
                participation_field := participationField
                file_field_map := filePairs
                search := { inn_keys := [], company_keys := [], phone_keys := [], email_keys := [] } }
            (build_search_fields cfg m (jor (pyGet kvs "search") (.obj []))).map
              (fun sf => { m with search := sf })
      | _ => .error ("Form " ++ name ++ " deal_fields must be an object")
  | _ => .error "Each form entry must be an object"

/-! ## Mapping store and hot reload (mapping.py:108-135) -/

/-- The backing mapping file as the store observes it: a modification time
and the parsed JSON content (`_load` re-reads both on every reload). -/
structure FileState where
  mtime : Nat
  content : JVal

/-- The mutable fields of `MappingStore` (mapping.py:38-40). -/
structure StoreState where
  cache : Option (List (String × FormMapping))
  mtime : Option Nat

/-- The parse loop of mapping.py:108 `MappingStore._load`: the top level
must be an object and every form entry must parse. -/
def load_mappings (cfg : Settings) (content : JVal) :
    Except String (List (String × FormMapping)) :=
  match content with
  | .obj kvs =>
    kvs.mapM (fun kv =>
      match parse_form cfg kv.1 kv.2 with
      | .error e => .error e
      | .ok m => .ok (kv.1, m))
  | _ => .error "mapping.json must contain an object at the top level"

/-- mapping.py:108 `MappingStore._load`: reparse the whole file, then swap
the cache and remember the file's modification time. -/
def store_load (cfg : Settings) (fs : FileState) : Except String StoreState :=
  match load_mappings cfg fs.content with
  | .error e => .error e
  | .ok cache => .ok { cache := some cache, mtime := some fs.mtime }

/-- mapping.py:121 `MappingStore._ensure_loaded`: reload when the cache is
cold or the file's current modification time is strictly newer than the
remembered one; otherwise keep the state untouched. -/
def ensure_loaded (cfg : Settings) (fs : FileState) (st : StoreState) :
    Except String StoreState :=
  let needsReload :=
    match st.cache with
    | none => true
    | some _ =>
      match st.mtime with
      | none => true
      | some m => fs.mtime > m
  if needsReload then store_load cfg fs else .ok st

/-- Association lookup over the parsed form cache (`self._cache.get`). -/
def lookupForm (cache : List (String × FormMapping)) (key : String) : Option FormMapping :=
  match cache.find? (fun kv => kv.1 = key) with
  | some kv => some kv.2
  | none => none

/-- mapping.py:132 `MappingStore.get_form`: ensure the cache is fresh, then
look the form up; returns the possibly-updated store state alongside. -/
def get_form (cfg : Settings) (fs : FileState) (st : StoreState) (key : String) :
    Except String (StoreState × Option FormMapping) :=
  match ensure_loaded cfg fs st with
  | .error e => .error e
  | .ok st2 =>
    match st2.cache with
    | some cache => .ok (st2, lookupForm cache key)
    | none => .ok (st2, none)

/-! ## CRM collaborator model (app/bitrix.py, consumed by main.py)

Read-only CRM queries are total oracle functions; mutating calls return
`Except Unit _` so that a raised `BitrixError` is an `error` result.  Each
oracle corresponds to one concrete REST call shape the source issues. -/

/-- A row of a `crm.contact.list` response (selected `ID`, `COMPANY_ID`). -/
structure ContactRow where
  id : Nat
  companyId : Option Nat

/-- A `crm.contact.get` detail (the fields the source reads). -/
structure ContactDetail where
  id : Nat
  companyId : Option Nat

/-- A row of a `crm.deal.list` response (selected `ID`, `COMPANY_ID`,
`CONTACT_ID`). -/
structure DealRow where
  id : Nat
  companyId : Option Nat
  contactId : Option Nat

/-- Values stored into a contact payload by `assign_contact_field`:
`PHONE`/`EMAIL` become lists of multi-value sub-records (their `VALUE`
strings; the constant `VALUE_TYPE: "WORK"` tag is implicit), every other
field keeps its value. -/
inductive CVal where
  | multi (values : List String)
  | plain (v : JVal)

/-- The contact payload container of main.py:295 (ordered dict). -/
abbrev CDict := List (String × CVal)

/-- Lookup in a contact payload. -/
def cFind (d : CDict) (k : String) : Option CVal :=
  match d.find? (fun kv => kv.1 = k) with
  | some kv => some kv.2
  | none => none

/-- `k in d` for contact payloads. -/
def cHasKey (d : CDict) (k : String) : Bool := d.any (fun kv => kv.1 = k)

/-- Dict assignment for contact payloads. -/
def cSet (d : CDict) (k : String) (v : CVal) : CDict :=
  if cHasKey d k then d.map (fun kv => if kv.1 = k then (k, v) else kv)
  else d ++ [(k, v)]

/-- The read-only CRM queries the resolver issues.  Each function models
`crm.*.list` with one fixed filter shape (results in the CRM's native
id-descending order) or `crm.contact.get`. -/
structure Lookups where
  listContactsPhone : String → List ContactRow
  listContactsEmail : String → List ContactRow
  listContactsField : String → String → List ContactRow
  getContact : Nat → ContactDetail
  listDealsInn : String → List DealRow
  listDealsCompany : String → String → List DealRow
  listDealsContact : Nat → List DealRow
  listDealsCompanyId : Nat → List DealRow

/-- The mutating CRM/disk calls; an `error` result is a raised
`BitrixError` that aborts the submission. -/
structure Muts where
  createContact : CDict → Except Unit Nat
  createDeal : JDict → Except Unit Nat
  ensureParent : Except Unit String
  ensureFolder : String → String → Except Unit String
  uploadFile : String → String → Except Unit String

/-- The full collaborator environment of one submission. -/
structure Env where
  lk : Lookups
  mu : Muts

/-! ## Entity resolver (main.py:242-353) -/

/-- The phone/email lookup loops of main.py:243 and main.py:249: first
criterion value with a non-empty `crm.contact.list` result wins, resolved
through `crm.contact.get` on the first row. -/
def contactLookupLoop (list : String → List ContactRow) (get : Nat → ContactDetail) :
    List String → Option ContactDetail
  | [] => none
  | x :: rest =>
    match list x with
    | [] => contactLookupLoop list get rest
    | r :: _ => some (get r.id)

/-- The company-field loop of main.py:266: try each configured contact
company field in order. -/
def companyFieldLoop (lk : Lookups) (normalized : String) :
    List String → Option ContactDetail
  | [] => none
  | f :: rest =>
    match lk.listContactsField f normalized with
    | [] => companyFieldLoop lk normalized rest
    | r :: _ => some (lk.getContact r.id)

/-- main.py:262 `find_contact_by_company`: strip the company name, give up
when empty, else scan the configured company fields. -/
def find_contact_by_company (lk : Lookups) (cfg : Settings) (company : String) :
    Option ContactDetail :=
  let normalized := pyStrip company
  if normalized = "" then none
  else companyFieldLoop lk normalized cfg.contact_company_fields

/-- main.py:242 `find_existing_contact`: phones in order, then emails in
order, then the company-name fallback; the first hit short-circuits. -/
def find_existing_contact (lk : Lookups) (cfg : Settings) (search : SearchValues) :
    Option ContactDetail :=
  match contactLookupLoop lk.listContactsPhone lk.getContact search.phones with
  | some c => some c
  | none =>
    match contactLookupLoop lk.listContactsEmail lk.getContact search.emails with
    | some c => some c
    | none =>
      match search.company with
      | some comp => if comp = "" then none else find_contact_by_company lk cfg comp
      | none => none

/-- Python's `str.upper()` restricted like `pyLowerChar` to ASCII and
Cyrillic. -/
def pyUpperChar (c : Char) : Char :=
  let n := c.toNat
  if 97 ≤ n ∧ n ≤ 122 then Char.ofNat (n - 32)
  else if 0x430 ≤ n ∧ n ≤ 0x44F then Char.ofNat (n - 32)
  else if n = 0x451 then Char.ofNat 0x401
  else c

/-- `str.upper()` on a whole string. -/
def pyUpper (s : String) : String := String.mk (s.toList.map pyUpperChar)

/-- `value if isinstance(value, list) else [value]` (main.py:276,285). -/
def asPyList : JVal → List JVal
  | .l xs => xs
  | v => [v]

/-- main.py:275 `assign_contact_field`: a field named `PHONE`/`EMAIL` (case
insensitively) folds its value(s) into a multi-value list — `setdefault`
creates the key even when every value normalizes away — phones are
canonicalized and empties skipped, emails stripped and empties skipped;
every other field is assigned directly. -/
def assign_contact_field (container : CDict) (fieldName : String) (value : JVal) : CDict :=
  if pyUpper fieldName = "PHONE" then
    let existing :=
      match cFind container "PHONE" with
      | some (.multi xs) => xs
      | _ => []
    let added := (asPyList value).filterMap (fun number =>
      let normalized := normalize_phone (pyStr number)
      if normalized = "" then none else some normalized)
    cSet container "PHONE" (.multi (existing ++ added))
  else if pyUpper fieldName = "EMAIL" then
    let existing :=
      match cFind container "EMAIL" with
      | some (.multi xs) => xs
      | _ => []
    let added := (asPyList value).filterMap (fun email =>
      let es := pyStrip (pyStr email)
      if es = "" then none else some es)
    cSet container "EMAIL" (.multi (existing ++ added))
  else cSet container fieldName (.plain value)

/-- main.py:295 `build_contact_payload`: walk the mapping's contact fields
in order, skipping absent/normalized-away payload values. -/
def build_contact_payload (m : FormMapping) (p : Payload) : CDict :=
  m.contact_fields.foldl
    (fun fields kv =>
      match normGet p kv.1 with
      | none => fields
      | some value => assign_contact_field fields kv.2 value)
    []

/-- The contact payload of main.py:310-314: the mapped fields plus the
fallback first phone / first email when the corresponding key is absent
from the built payload. -/
def built_contact_fields (m : FormMapping) (p : Payload) (search : SearchValues) : CDict :=
  let cf := build_contact_payload m p
  let cf :=
    if !search.phones.isEmpty && !cHasKey cf "PHONE" then
      assign_contact_field cf "PHONE" (.l ((search.phones.take 1).map .s))
    else cf
  if !search.emails.isEmpty && !cHasKey cf "EMAIL" then
    assign_contact_field cf "EMAIL" (.l ((search.emails.take 1).map .s))
  else cf

/-- The `COMPANY_ID` reading of main.py:308:
`int(contact.get("COMPANY_ID") or 0) or None`. -/
def companyIdOpt (c : ContactDetail) : Option Nat :=
  match c.companyId with
  | some n => if n = 0 then none else some n
  | none => none

/-! ## Externally visible actions

Every CRM write, disk call and audit-log record emitted while handling a
primary form, in program order. -/

/-- One externally visible action of the submission pipeline. -/
inductive Act where
  | updateDeal (dealId : Nat) (fields : JDict)
  | createDeal (fields : JDict) (result : Option Nat)
  | createContact (fields : CDict) (result : Option Nat)
  | ensureParent (result : Option String)
  | ensureFolder (parent : String) (name : String) (result : Option String)
  | uploadFile (path : String) (result : Option String)
  | logBaseDealUpdated (dealId : Nat)
  | logNoParticipation
  | logDealCreated (dealId : Nat) (fields : JDict) (participation : String)
      (files : List (String × List String))

/-- Discriminator: a successful or attempted `crm.deal.add` call. -/
def isCreateDealAct : Act → Bool
  | .createDeal _ _ => true
  | _ => false

/-- Discriminator: a `crm.contact.add` call. -/
def isCreateContactAct : Act → Bool
  | .createContact _ _ => true
  | _ => false

/-- Discriminator: a `crm.deal.update` call. -/
def isUpdateDealAct : Act → Bool
  | .updateDeal _ _ => true
  | _ => false

/-- Discriminator: the audit record of a base-deal stage transition. -/
def isBaseLogAct : Act → Bool
  | .logBaseDealUpdated _ => true
  | _ => false

/-- Discriminator: a disk folder resolution call. -/
def isFolderAct : Act → Bool
  | .ensureParent _ => true
  | .ensureFolder _ _ _ => true
  | _ => false

/-- Discriminator: a disk upload call. -/
def isUploadAct : Act → Bool
  | .uploadFile _ _ => true
  | _ => false

/-- The deal ids successfully created within a trace. -/
def createdIds (tr : List Act) : List Nat :=
  tr.filterMap (fun a =>
    match a with
    | .createDeal _ (some i) => some i
    | _ => none)

/-- The `(deal id, participation category)` pairs of the `deal_created`
audit records within a trace. -/
def logPairs (tr : List Act) : List (Nat × String) :=
  tr.filterMap (fun a =>
    match a with
    | .logDealCreated i _ cat _ => some (i, cat)
    | _ => none)

/-! ## Contact creation (main.py:305) -/

/-- Reading a contact-payload value back as a plain value
(`contact_fields.get("COMPANY_ID")`; the key is never a multi-value one). -/
def cvalToJ : CVal → JVal
  | .plain v => v
  | .multi _ => .other

/-- main.py:305 `ensure_contact`: reuse a resolved contact; otherwise build
the payload (mapped fields plus fallbacks) and create a contact only when
it is non-empty, defaulting `NAME`; an empty payload means no CRM call and
`(absent, absent)`. -/
def ensure_contact (env : Env) (cfg : Settings) (m : FormMapping) (p : Payload)
    (search : SearchValues) : List Act × Except Unit (Option Nat × Option JVal) :=
  match find_existing_contact env.lk cfg search with
  | some c => ([], .ok (some c.id, (companyIdOpt c).map (fun n => .i (n : Int))))
  | none =>
    let cf := built_contact_fields m p search
    if cf.isEmpty then ([], .ok (none, none))
    else
      let nameDefault :=
        match cFind cf "UF_NAME" with
        | some v => v
        | none => .plain (.s "Заявитель из Тильды")
      let cf := if cHasKey cf "NAME" then cf else cf ++ [("NAME", nameDefault)]
      match env.mu.createContact cf with
      | .error _ => ([.createContact cf none], .error ())
      | .ok cid =>
        ([.createContact cf (some cid)],
         .ok (some cid, (cFind cf "COMPANY_ID").map cvalToJ))

/-! ## Base-deal detection (main.py:322) -/

/-- The company-field loop of main.py:330: `settings.bitrix_company_fields
or (settings.bitrix_title_field,)`. -/
def baseCompanyFields (cfg : Settings) : List String :=
  if cfg.bitrix_company_fields.isEmpty then [cfg.bitrix_title_field]
  else cfg.bitrix_company_fields

/-- The per-field base-deal company scan of main.py:330-335. -/
def baseDealCompanyLoop (lk : Lookups) (company : String) :
    List String → Option DealRow
  | [] => none
  | f :: rest =>
    match lk.listDealsCompany f company with
    | [] => baseDealCompanyLoop lk company rest
    | d :: _ => some d

/-- main.py:322 `find_base_deal`: within the base category, INN match, then
company-name match over the configured fields, then deals linked to a
resolved contact, then deals linked to that contact's company; each step
takes the first row of the first non-empty result. -/
def find_base_deal (lk : Lookups) (cfg : Settings) (search : SearchValues) :
    Option DealRow :=
  let step1 :=
    match search.inn with
    | some inn => if inn = "" then none else (lk.listDealsInn inn).head?
    | none => none
  match step1 with
  | some d => some d
  | none =>
    let step2 :=
      match search.company with
      | some comp => if comp = "" then none else baseDealCompanyLoop lk comp (baseCompanyFields cfg)
      | none => none
    match step2 with
    | some d => some d
    | none =>
      if !search.phones.isEmpty || !search.emails.isEmpty || optTruthy search.company then
        match find_existing_contact lk cfg search with
        | some contact =>
          match (lk.listDealsContact contact.id).head? with
          | some d => some d
          | none =>
            match contact.companyId with
            | some cid =>
              if cid = 0 then none
              else (lk.listDealsCompanyId cid).head?
            | none => none
        | none => none
      else none

/-! ## Deal-field merging (main.py:356) -/

/-- main.py:356 `build_deal_fields`: start from the base fields, then fold
the mapping's deal fields in, concatenating into a list (existing values
first) when a CRM field is hit twice. -/
def build_deal_fields (p : Payload) (mapping : SDict) (baseFields : JDict) : JDict :=
  mapping.foldl
    (fun fields kv =>
      match normGet p kv.1 with
      | none => fields
      | some value =>
        match dictFind fields kv.2 with
        | none => dictSet fields kv.2 value
        | some existing =>
          let values :=
            (match existing with
             | .l xs => xs
             | e => [e]) ++
            (match value with
             | .l xs => xs
             | v => [v])
          dictSet fields kv.2 (.l values))
    baseFields

/-! ## File placement orchestrator (main.py:406) -/

/-- main.py:238 `get_uploads_for_field`. -/
structure SavedUpload where
  field : String
  filename : String
  path : String

/-- Filter the staged uploads down to one form field (main.py:238). -/
def get_uploads_for_field (uploads : List SavedUpload) (fieldName : String) :
    List SavedUpload :=
  uploads.filter (fun u => u.field = fieldName)

/-- The upload loop of main.py:412: upload each file in order, collecting
ids; a failing upload raises and aborts the loop. -/
def uploadLoop (env : Env) (folder : String) :
    List SavedUpload → List Act × Except Unit (List String)
  | [] => ([], .ok [])
  | u :: rest =>
    match env.mu.uploadFile folder u.path with
    | .error _ => ([.uploadFile u.path none], .error ())
    | .ok fid =>
      let (acts, res) := uploadLoop env folder rest
      (.uploadFile u.path (some fid) :: acts,
       match res with
       | .error e => .error e
       | .ok ids => .ok (fid :: ids))

/-- main.py:406 `upload_files_for_deal`: no-op without uploads or without a
truthy target field; otherwise resolve the uploads parent and the
deal-scoped folder, upload every file in order, and — when at least one id
was collected — write the whole id list to the target field with a single
deal update. -/
def upload_files_for_deal (env : Env) (dealId : Nat) (uploads : List SavedUpload)
    (targetField : Option String) : List Act × Except Unit (List String) :=
  if uploads.isEmpty || !optTruthy targetField then ([], .ok [])
  else
    match targetField with
    | none => ([], .ok [])
    | some target =>
      match env.mu.ensureParent with
      | .error _ => ([.ensureParent none], .error ())
      | .ok parent =>
        match env.mu.ensureFolder parent ("deal_" ++ toString dealId) with
        | .error _ =>
          ([.ensureParent (some parent),
            .ensureFolder parent ("deal_" ++ toString dealId) none], .error ())
        | .ok folder =>
          match uploadLoop env folder uploads with
          | (acts, .error _) =>
            ([Act.ensureParent (some parent),
              Act.ensureFolder parent ("deal_" ++ toString dealId) (some folder)] ++ acts,
             .error ())
          | (acts, .ok fileIds) =>
            if fileIds.isEmpty then
              ([Act.ensureParent (some parent),
                Act.ensureFolder parent ("deal_" ++ toString dealId) (some folder)] ++ acts,
               .ok fileIds)
            else
              ([Act.ensureParent (some parent),
                Act.ensureFolder parent ("deal_" ++ toString dealId) (some folder)] ++ acts ++
                 [.updateDeal dealId [(target, .l (fileIds.map JVal.s))]],
               .ok fileIds)

/-! ## Primary-form fan-out (main.py:420-492) -/

/-- `{**DEFAULT_FILE_FIELD_MAP, **mapping.file_field_map}` (main.py:443):
the defaults for `Показ`/`Маркет` (main.py:82) overridden and extended by
the mapping's own file-field map. -/
def file_fields_merged (cfg : Settings) (m : FormMapping) : SDict :=
  let base := [("Показ", cfg.bitrix_show_file_field),
               ("Маркет", cfg.bitrix_market_file_field)]
  m.file_field_map.foldl (fun d kv => sSet d kv.1 kv.2) base

/-- The fallback chain of the company label:
`payload.get("brands_name") or "Без названия"`. -/
def companyLabelFallback (p : Payload) : String :=
  let v := pyGet p "brands_name"
  if jTruthy v then pyStr v else "Без названия"

/-- `search_values.company or payload.get("brands_name") or "Без названия"`
(main.py:444), stringified where the f-string renders it. -/
def company_label (search : SearchValues) (p : Payload) : String :=
  match search.company with
  | some c => if c ≠ "" then c else companyLabelFallback p
  | none => companyLabelFallback p

/-- The deal fields assembled for one participation category
(main.py:447-457): fixed base record, mapped deal fields, synthesized
title, and the optional company/contact links. -/
def catDealFields (cfg : Settings) (formKey : String) (m : FormMapping) (p : Payload)
    (label : String) (contactId : Option Nat) (companyId : Option JVal)
    (entry : String) : JDict :=
  let baseFields : JDict :=
    [("CATEGORY_ID", .i cfg.bitrix_category_applications_id),
     ("STAGE_ID", .s cfg.bitrix_stage_applications_new),
     ("SOURCE_ID", .s formKey)]
  let df := build_deal_fields p m.deal_fields baseFields
  let df := dictSet df cfg.bitrix_title_field (.s ("Заявка: " ++ label ++ " — " ++ entry))
  let df :=
    match companyId with
    | some cv => if jTruthy cv then dictSetdefault df "COMPANY_ID" cv else df
    | none => df
  match contactId with
  | some n => if n ≠ 0 then dictSet df "CONTACT_ID" (.i (n : Int)) else df
  | none => df

/-- The linesheet target field of main.py:473-475: the mapping's
`linesheet` entry when the file-field map is non-empty and the entry is
truthy, else the configured linesheet field. -/
def linesheetField (cfg : Settings) (m : FormMapping) : Option String :=
  let lf0 := if m.file_field_map.isEmpty then none else sFind m.file_field_map "linesheet"
  if optTruthy lf0 then lf0 else some cfg.bitrix_linesheet_file_field

/-- One iteration of the participation loop (main.py:446-490): create the
deal, place the category's files (`Показ` uploads for `Показ`; `Маркет`
uploads for `Маркет` and `Шоурум`, into the `Маркет` target field), place
the shared linesheet uploads, then emit the `deal_created` audit record. -/
def catStep (env : Env) (cfg : Settings) (formKey : String) (m : FormMapping)
    (p : Payload) (uploads : List SavedUpload) (fileFields : SDict) (label : String)
    (contactId : Option Nat) (companyId : Option JVal) (entry : String) :
    List Act × Except Unit Nat :=
  let df := catDealFields cfg formKey m p label contactId companyId entry
  match env.mu.createDeal df with
  | .error _ => ([.createDeal df none], .error ())
  | .ok dealId =>
    let a0 := [Act.createDeal df (some dealId)]
    let targetField := sFind fileFields entry
    let (aShow, rShow) :=
      if entry = "Показ" && optTruthy targetField then
        upload_files_for_deal env dealId (get_uploads_for_field uploads "illustrations_show") targetField
      else ([], .ok [])
    match rShow with
    | .error _ => (a0 ++ aShow, .error ())
    | .ok showIds =>
      let (aMarket, rMarket) :=
        if entry = "Маркет" || entry = "Шоурум" then
          upload_files_for_deal env dealId (get_uploads_for_field uploads "illustrations_market")
            (sFind fileFields "Маркет")
        else ([], .ok [])
      match rMarket with
      | .error _ => (a0 ++ aShow ++ aMarket, .error ())
      | .ok marketIds =>
        let (aLs, rLs) :=
          upload_files_for_deal env dealId (get_uploads_for_field uploads "linesheet")
            (linesheetField cfg m)
        match rLs with
        | .error _ => (a0 ++ aShow ++ aMarket ++ aLs, .error ())
        | .ok lsIds =>
          let fileSummary :=
            (if showIds.isEmpty then [] else [("illustrations_show", showIds)]) ++
            (if marketIds.isEmpty then [] else [("illustrations_market", marketIds)]) ++
            (if lsIds.isEmpty then [] else [("linesheet", lsIds)])
          (a0 ++ aShow ++ aMarket ++ aLs ++
             [.logDealCreated dealId df entry fileSummary],
           .ok dealId)

/-- The `for entry in participation` loop of main.py:446: strictly
sequential; the first raised error aborts the remaining categories while
the trace keeps everything already done. -/
def fanoutLoop (env : Env) (cfg : Settings) (formKey : String) (m : FormMapping)
    (p : Payload) (uploads : List SavedUpload) (fileFields : SDict) (label : String)
    (contactId : Option Nat) (companyId : Option JVal) :
    List String → List Act × Except Unit (List Nat)
  | [] => ([], .ok [])
  | entry :: rest =>
    match catStep env cfg formKey m p uploads fileFields label contactId companyId entry with
    | (acts, .error _) => (acts, .error ())
    | (acts, .ok dealId) =>
      let (acts2, res) :=
        fanoutLoop env cfg formKey m p uploads fileFields label contactId companyId rest
      (acts ++ acts2,
       match res with
       | .error e => .error e
       | .ok ids => .ok (dealId :: ids))

/-- The base-deal block of main.py:427-435: when a base deal is found, move
it to the terminal won stage and log exactly one audit record. -/
def baseSegment (lk : Lookups) (cfg : Settings) (search : SearchValues) : List Act :=
  match find_base_deal lk cfg search with
  | some d =>
    [.updateDeal d.id [("STAGE_ID", .s cfg.bitrix_stage_base_won)],
     .logBaseDealUpdated d.id]
  | none => []

/-- The outcome of a primary-form submission. -/
inductive PrimaryErr where
  | badRequest
  | bitrix

/-- main.py:420 `handle_primary_form`: derive search values, apply the
base-deal transition, extract participation categories (empty is a 400),
ensure the contact, then fan out one deal per category. -/
def handle_primary_form (env : Env) (cfg : Settings) (formKey : String)
    (m : FormMapping) (p : Payload) (uploads : List SavedUpload) :
    List Act × Except PrimaryErr (List Nat) :=
  let search := build_search_values m p
  let acts0 := baseSegment env.lk cfg search
  let participation := extract_participation_types cfg m p
  if participation.isEmpty then
    (acts0 ++ [.logNoParticipation], .error .badRequest)
  else
    match ensure_contact env cfg m p search with
    | (acts1, .error _) => (acts0 ++ acts1, .error .bitrix)
    | (acts1, .ok (contactId, companyId)) =>
      let fileFields := file_fields_merged cfg m
      let label := company_label search p
      let (acts2, res) :=
        fanoutLoop env cfg formKey m p uploads fileFields label contactId companyId participation
      (acts0 ++ acts1 ++ acts2,
       match res with
       | .error _ => .error .bitrix
       | .ok ids => .ok ids)

/-! # Theorems

Supporting lemmas first, then one theorem per claim (witnesses and
counterexamples directly after their claim's theorem). -/

/-! ## Claim C8 — `normalize_value` -/

/-- Normalization never produces a value the list filter would drop: its
string results are non-empty and its list results are non-empty. -/
theorem dropEmptyNorm_normalize (v : JVal) :
    dropEmptyNorm (normalize_value v) = normalize_value v := by
  cases v with
  | null => rfl
  | s w =>
    simp only [normalize_value]
    by_cases h : pyStrip w = ""
    · simp [h, dropEmptyNorm]
    · simp [h, dropEmptyNorm]
  | l xs =>
    simp only [normalize_value]
    by_cases h : ((normalize_each xs).filterMap dropEmptyNorm).isEmpty
    · simp [h, dropEmptyNorm]
    · simp only [h, if_false, dropEmptyNorm]
      rw [List.isEmpty_iff] at h
      simp [h]
  | i n => rfl
  | b w => rfl
  | obj kvs => rfl
  | other => rfl

/-- The comprehension `[normalize_value(item) for item in value]` is a map. -/
theorem normalize_each_eq_map (xs : List JVal) :
    normalize_each xs = xs.map normalize_value := by
  induction xs with
  | nil => rfl
  | cons x xs ih => simp [normalize_each, ih]

/-- The filtered normalized entries of a list are exactly the non-absent
recursive normalizations, in order. -/
theorem normalize_list_entries (xs : List JVal) :
    (normalize_each xs).filterMap dropEmptyNorm = (xs.map normalize_value).reduceOption := by
  rw [normalize_each_eq_map, List.reduceOption]
  induction xs with
  | nil => rfl
  | cons x xs ih =>
    simp only [List.map_cons, List.filterMap_cons, dropEmptyNorm_normalize, ih, id]

/-- C8: `normalize_value` trims strings to absent-if-empty; on lists it
recursively normalizes the entries, drops the absent ones, and collapses an
empty result to absent; in particular `normalize_value("")` is absent and
`normalize_value([" ", "x ", ""])` is `["x"]`. -/
theorem claim_normalize_value :
    normalize_value (.s "") = none
    ∧ normalize_value (.l [.s " ", .s "x ", .s ""]) = some (.l [.s "x"])
    ∧ (∀ v : String,
        normalize_value (.s v) =
          (if pyStrip v = "" then none else some (.s (pyStrip v))))
    ∧ (∀ xs : List JVal,
        normalize_value (.l xs) =
          (if ((xs.map normalize_value).reduceOption).isEmpty then none
           else some (.l ((xs.map normalize_value).reduceOption)))) := by
  refine ⟨rfl, rfl, fun v => rfl, fun xs => ?_⟩
  simp only [normalize_value, normalize_list_entries]

/-! ## Claim C2 — participation-category extraction -/

/-- One step of the keyword loop: membership after considering one keyword. -/
theorem mem_addStep (kw c : String) (vs : List String) (k : String) :
    (k ∈ (if keywordMatches kw c && !vs.contains kw then vs ++ [kw] else vs)) ↔
      k ∈ vs ∨ (k = kw ∧ keywordMatches k c = true) := by
  by_cases hm : keywordMatches kw c = true
  · by_cases hv : kw ∈ vs
    · have : vs.contains kw = true := by simpa using hv
      simp only [hm, this, Bool.not_true, Bool.and_false, if_false]
      constructor
      · exact fun h => Or.inl h
      · rintro (h | ⟨rfl, _⟩)
        · exact h
        · exact hv
    · have : vs.contains kw = false := by simpa using hv
      simp only [hm, this, Bool.not_false, Bool.and_true, if_true, List.mem_append,
        List.mem_singleton]
      constructor
      · rintro (h | rfl)
        · exact Or.inl h
        · exact Or.inr ⟨rfl, hm⟩
      · rintro (h | ⟨rfl, _⟩)
        · exact Or.inl h
        · exact Or.inr rfl
  · have hm0 : keywordMatches kw c = false := by simpa using hm
    simp only [hm0, Bool.false_and, if_false]
    constructor
    · exact fun h => Or.inl h
    · rintro (h | ⟨rfl, hk⟩)
      · exact h
      · exact absurd hk (by simp [hm0])

/-- Membership in the keyword loop over a whole vocabulary. -/
theorem mem_addKeywords (kws : List String) (c : String) (vs : List String) (k : String) :
    k ∈ addKeywords kws c vs ↔ k ∈ vs ∨ (k ∈ kws ∧ keywordMatches k c = true) := by
  induction kws generalizing vs with
  | nil => simp [addKeywords]
  | cons kw kws ih =>
    show k ∈ addKeywords kws c _ ↔ _
    rw [ih, mem_addStep]
    constructor
    · rintro ((h | ⟨rfl, hk⟩) | ⟨hk, hc⟩)
      · exact Or.inl h
      · exact Or.inr ⟨List.mem_cons_self _ _, hk⟩
      · exact Or.inr ⟨List.mem_cons_of_mem _ hk, hc⟩
    · rintro (h | ⟨hmem, hc⟩)
      · exact Or.inl (Or.inl h)
      · rcases List.mem_cons.mp hmem with rfl | hmem2
        · exact Or.inl (Or.inr ⟨rfl, hc⟩)
        · exact Or.inr ⟨hmem2, hc⟩

/-- The keyword loop preserves deduplication. -/
theorem nodup_addKeywords (kws : List String) (c : String) (vs : List String)
    (h : vs.Nodup) : (addKeywords kws c vs).Nodup := by
  induction kws generalizing vs with
  | nil => exact h
  | cons kw kws ih =>
    show ((addKeywords kws c _)).Nodup
    apply ih
    by_cases hcond : keywordMatches kw c && !vs.contains kw
    · have hnv : kw ∉ vs := by
        rcases Bool.and_eq_true_iff.mp hcond with ⟨_, hnc⟩
        simp only [Bool.not_eq_true'] at hnc
        simpa using hnc
      simp only [hcond, if_true]
      rw [← List.concat_eq_append]
      exact List.Nodup.concat hnv h
    · simp only [Bool.not_eq_true] at hcond
      simp only [hcond, if_false]
      exact h

/-- Membership in the fold of the keyword loop over the cleaned parts. -/
theorem mem_partsFold (kws parts : List String) (vs : List String) (k : String) :
    k ∈ parts.foldl (fun a c => addKeywords kws c a) vs ↔
      k ∈ vs ∨ (k ∈ kws ∧ ∃ part ∈ parts, keywordMatches k part = true) := by
  induction parts generalizing vs with
  | nil => simp
  | cons part parts ih =>
    simp only [List.foldl_cons]
    rw [ih, mem_addKeywords]
    constructor
    · rintro ((h | ⟨hk, hc⟩) | ⟨hk, q, hq, hc⟩)
      · exact Or.inl h
      · exact Or.inr ⟨hk, part, List.mem_cons_self _ _, hc⟩
      · exact Or.inr ⟨hk, q, List.mem_cons_of_mem _ hq, hc⟩
    · rintro (h | ⟨hk, q, hq, hc⟩)
      · exact Or.inl (Or.inl h)
      · rcases List.mem_cons.mp hq with rfl | hq2
        · exact Or.inl (Or.inr ⟨hk, hc⟩)
        · exact Or.inr ⟨hk, q, hq2, hc⟩

/-- The fold of the keyword loop preserves deduplication. -/
theorem nodup_partsFold (kws parts : List String) (vs : List String)
    (h : vs.Nodup) : (parts.foldl (fun a c => addKeywords kws c a) vs).Nodup := by
  induction parts generalizing vs with
  | nil => exact h
  | cons part parts ih =>
    exact ih _ (nodup_addKeywords kws part vs h)

/-- A demonstration mapping with no explicit participation field (the
`format` default applies) and no field maps. -/
def demoMapping : FormMapping :=
  { name := "tilda_form_main"
    deal_fields := []
    contact_fields := []
    kind := "primary"
    participation_field := none
    file_field_map := []
    search := { inn_keys := [], company_keys := [], phone_keys := [], email_keys := [] } }

/-- The payload of the spec's fan-out dedup/order example. -/
def demoParticipationPayload : Payload := [("format", .s "Показ, Показ, Маркет")]

/-- C2: participation extraction splits the configured field's value on the
delimiter set, matches each cleaned token case-insensitively against the
keyword vocabulary, and deduplicates preserving first-seen order; the
tokens `"Показ, Показ, Маркет"` yield exactly `["Показ", "Маркет"]`. -/
theorem claim_participation_extraction (cfg : Settings) (m : FormMapping) (p : Payload) :
    extract_participation_types defaultSettings demoMapping demoParticipationPayload
        = ["Показ", "Маркет"]
    ∧ (extract_participation_types cfg m p).Nodup
    ∧ (∀ k, k ∈ extract_participation_types cfg m p ↔
        k ∈ cfg.participation_keywords ∧
          ∃ part ∈ cleaned_parts m p, keywordMatches k part = true) := by
  refine ⟨by decide, ?_, ?_⟩
  · exact nodup_partsFold _ _ _ List.nodup_nil
  · intro k
    rw [extract_participation_types, mem_partsFold]
    simp

/-! ## Claim C7 — mapping hot reload -/

/-- C7: every access compares the file's current modification time with the
cached one; a stale file leaves the cache untouched and serves the cached
mapping, while an advanced modification time reparses the whole file and
swaps the cache wholesale, so the next access serves exactly the freshly
parsed mapping — never a mix of old and new entries. -/
theorem claim_mapping_hot_reload (cfg : Settings) (fs fsNew : FileState)
    (st : StoreState) (key : String) (c cNew : List (String × FormMapping)) (m : Nat)
    (hc : st.cache = some c) (hm : st.mtime = some m)
    (hstale : fs.mtime ≤ m)
    (hfresh : m < fsNew.mtime)
    (hparse : load_mappings cfg fsNew.content = .ok cNew) :
    get_form cfg fs st key = .ok (st, lookupForm c key)
    ∧ get_form cfg fsNew st key =
        .ok ({ cache := some cNew, mtime := some fsNew.mtime }, lookupForm cNew key) := by
  constructor
  · have h1 : decide (fs.mtime > m) = false := decide_eq_false (by omega)
    simp only [get_form, ensure_loaded, hc, hm, h1, Bool.false_eq_true, if_false]
  · have h2 : decide (fsNew.mtime > m) = true := decide_eq_true (by omega)
    simp only [get_form, ensure_loaded, hc, hm, h2, if_true, store_load, hparse]

/-- A flat legacy mapping-file content for the hot-reload witness. -/
def demoContentOld : JVal := .obj [("f", .obj [("a", .s "TITLE")])]

/-- A different flat content with a newer modification time. -/
def demoContentNew : JVal := .obj [("f", .obj [("b", .s "UF_INN")])]

/-- The parse of the old content (non-empty, evaluated by the kernel). -/
def demoCacheOld : List (String × FormMapping) :=
  match load_mappings defaultSettings demoContentOld with
  | .ok c => c
  | .error _ => []

/-- The parse of the new content. -/
def demoCacheNew : List (String × FormMapping) :=
  match load_mappings defaultSettings demoContentNew with
  | .ok c => c
  | .error _ => []

/-- Witness for C7: with the cache loaded at modification time 1, an access
at time 1 serves the old mapping, and after the file advances to time 2 the
access serves exactly the freshly parsed new mapping. -/
theorem claim_mapping_hot_reload_witness :
    get_form defaultSettings { mtime := 1, content := demoContentOld }
        { cache := some demoCacheOld, mtime := some 1 } "f"
      = .ok ({ cache := some demoCacheOld, mtime := some 1 }, lookupForm demoCacheOld "f")
    ∧ get_form defaultSettings { mtime := 2, content := demoContentNew }
        { cache := some demoCacheOld, mtime := some 1 } "f"
      = .ok ({ cache := some demoCacheNew, mtime := some 2 }, lookupForm demoCacheNew "f") :=
  claim_mapping_hot_reload defaultSettings
    { mtime := 1, content := demoContentOld }
    { mtime := 2, content := demoContentNew }
    { cache := some demoCacheOld, mtime := some 1 } "f"
    demoCacheOld demoCacheNew 1 rfl rfl (by decide) (by decide) rfl

/-! ## Claim C5 — file placement -/

/-- Under an always-succeeding upload oracle the upload loop uploads each
file in order and returns all ids in order. -/
theorem uploadLoop_ok (env : Env) (folder : String) (uf : String → String → String)
    (hu : ∀ a b, env.mu.uploadFile a b = .ok (uf a b)) (ups : List SavedUpload) :
    uploadLoop env folder ups =
      (ups.map (fun u => Act.uploadFile u.path (some (uf folder u.path))),
       .ok (ups.map (fun u => uf folder u.path))) := by
  induction ups with
  | nil => rfl
  | cons u rest ih => simp [uploadLoop, hu, ih]

/-- The upload loop never issues a deal update. -/
theorem uploadLoop_no_update (env : Env) (folder : String) (ups : List SavedUpload) :
    (uploadLoop env folder ups).1.countP isUpdateDealAct = 0 := by
  induction ups with
  | nil => rfl
  | cons u rest ih =>
    simp only [uploadLoop]
    cases h : env.mu.uploadFile folder u.path with
    | error e => rfl
    | ok fid =>
      rcases hr : uploadLoop env folder rest with ⟨acts, res⟩
      have ih2 : acts.countP isUpdateDealAct = 0 := by
        rw [hr] at ih
        exact ih
      simp [hr, List.countP_cons, isUpdateDealAct, ih2]

/-- Exact behaviour of `upload_files_for_deal` on a non-empty upload list,
truthy target field, and an environment whose disk calls all succeed: two
folder resolutions, one upload per file in order, and one final deal update
carrying the complete id list. -/
theorem upload_files_exact (env : Env) (dealId : Nat) (ups : List SavedUpload)
    (t par : String) (fol uf : String → String → String)
    (hp : env.mu.ensureParent = .ok par)
    (hf : ∀ a b, env.mu.ensureFolder a b = .ok (fol a b))
    (hu : ∀ a b, env.mu.uploadFile a b = .ok (uf a b))
    (hne : ups ≠ []) (ht : t ≠ "") :
    upload_files_for_deal env dealId ups (some t) =
      ([Act.ensureParent (some par),
        Act.ensureFolder par ("deal_" ++ toString dealId)
          (some (fol par ("deal_" ++ toString dealId)))] ++
       ups.map (fun u =>
         Act.uploadFile u.path (some (uf (fol par ("deal_" ++ toString dealId)) u.path))) ++
       [Act.updateDeal dealId
         [(t, .l ((ups.map (fun u => uf (fol par ("deal_" ++ toString dealId)) u.path)).map JVal.s))]],
       .ok (ups.map (fun u => uf (fol par ("deal_" ++ toString dealId)) u.path))) := by
  have hne2 : ups.isEmpty = false := by
    cases ups with
    | nil => exact absurd rfl hne
    | cons a l => rfl
  have hids : (ups.map (fun u => uf (fol par ("deal_" ++ toString dealId)) u.path)).isEmpty = false := by
    cases ups with
    | nil => exact absurd rfl hne
    | cons a l => rfl
  have hot : optTruthy (some t) = true := by simp [optTruthy, ht]
  simp [upload_files_for_deal, hne2, hot, hp, hf, uploadLoop_ok env _ uf hu, hids]

/-- A failed placement (a raised disk error) never issues a deal update. -/
theorem upload_files_error_no_update (env : Env) (dealId : Nat)
    (ups : List SavedUpload) (target : Option String) (tr : List Act) (e : Unit)
    (h : upload_files_for_deal env dealId ups target = (tr, .error e)) :
    tr.countP isUpdateDealAct = 0 := by
  unfold upload_files_for_deal at h
  split at h
  · simp at h
  · split at h
    · simp at h
    · split at h
      · simp only [Prod.mk.injEq] at h
        rw [← h.1]
        rfl
      · split at h
        · simp only [Prod.mk.injEq] at h
          rw [← h.1]
          rfl
        · split at h
          · rename_i fol hfolEq scrut acts a hloop
            simp only [Prod.mk.injEq] at h
            rw [← h.1]
            have hcnt := uploadLoop_no_update env fol ups
            rw [hloop] at hcnt
            simp only [List.countP_append, List.countP_cons, hcnt]
            rfl
          · split at h
            · simp at h
            · simp at h

/-- C5: file placement is a no-op — empty result and zero folder lookups,
uploads and deal updates — when the upload list is empty or the target
field is absent; otherwise it uploads each file in order and, only when at
least one upload succeeded, issues exactly one deal update carrying the
full file-id list, never one update per file; and a failed run issues no
update at all. -/
theorem claim_file_placement (env : Env) (dealId : Nat) (ups : List SavedUpload)
    (target : Option String) :
    (ups = [] ∨ optTruthy target = false →
      upload_files_for_deal env dealId ups target = ([], .ok []))
    ∧ (∀ (t par : String) (fol uf : String → String → String),
        env.mu.ensureParent = .ok par →
        (∀ a b, env.mu.ensureFolder a b = .ok (fol a b)) →
        (∀ a b, env.mu.uploadFile a b = .ok (uf a b)) →
        ups ≠ [] → t ≠ "" → target = some t →
        upload_files_for_deal env dealId ups target =
          ([Act.ensureParent (some par),
            Act.ensureFolder par ("deal_" ++ toString dealId)
              (some (fol par ("deal_" ++ toString dealId)))] ++
           ups.map (fun u =>
             Act.uploadFile u.path
               (some (uf (fol par ("deal_" ++ toString dealId)) u.path))) ++
           [Act.updateDeal dealId
             [(t, .l ((ups.map
                 (fun u => uf (fol par ("deal_" ++ toString dealId)) u.path)).map JVal.s))]],
           .ok (ups.map (fun u => uf (fol par ("deal_" ++ toString dealId)) u.path))))
    ∧ (∀ (tr : List Act) (e : Unit),
        upload_files_for_deal env dealId ups target = (tr, .error e) →
        tr.countP isUpdateDealAct = 0) := by
  refine ⟨?_, ?_, ?_⟩
  · rintro (rfl | hfalse)
    · simp [upload_files_for_deal]
    · simp [upload_files_for_deal, hfalse]
  · rintro t par fol uf hp hf hu hne ht rfl
    exact upload_files_exact env dealId ups t par fol uf hp hf hu hne ht
  · intro tr e h
    exact upload_files_error_no_update env dealId ups target tr e h

/-- All-miss CRM lookups for the demonstration environments. -/
def demoLookups : Lookups :=
  { listContactsPhone := fun _ => []
    listContactsEmail := fun _ => []
    listContactsField := fun _ _ => []
    getContact := fun n => { id := n, companyId := none }
    listDealsInn := fun _ => []
    listDealsCompany := fun _ _ => []
    listDealsContact := fun _ => []
    listDealsCompanyId := fun _ => [] }

/-- Always-succeeding mutation oracles for the demonstration environments. -/
def demoMuts : Muts :=
  { createContact := fun _ => .ok 100
    createDeal := fun _ => .ok 50
    ensureParent := .ok "P"
    ensureFolder := fun a b => .ok (a ++ "/" ++ b)
    uploadFile := fun _ b => .ok ("id_" ++ b) }

/-- A demonstration environment with empty CRM and a working disk. -/
def demoEnv : Env := { lk := demoLookups, mu := demoMuts }

/-- Witness for C5: one staged upload is uploaded and written back with a
single deal update carrying the full id list, while an empty upload list
triggers no calls at all. -/
theorem claim_file_placement_witness :
    upload_files_for_deal demoEnv 7 [{ field := "linesheet", filename := "a.pdf", path := "p1" }]
        (some "UF_X") =
      ([Act.ensureParent (some "P"),
        Act.ensureFolder "P" "deal_7" (some "P/deal_7"),
        Act.uploadFile "p1" (some "id_p1"),
        Act.updateDeal 7 [("UF_X", .l [.s "id_p1"])]],
       .ok ["id_p1"])
    ∧ upload_files_for_deal demoEnv 7 [] (some "UF_X") = ([], .ok []) :=
  ⟨(claim_file_placement demoEnv 7 [{ field := "linesheet", filename := "a.pdf", path := "p1" }]
      (some "UF_X")).2.1 "UF_X" "P" (fun a b => a ++ "/" ++ b) (fun _ b => "id_" ++ b)
      rfl (fun _ _ => rfl) (fun _ _ => rfl) (by simp) (by simp) rfl,
   (claim_file_placement demoEnv 7 [] (some "UF_X")).1 (Or.inl rfl)⟩

/-! ## Claim C3 — contact lookup precedence -/

/-- A lookup loop returns the detail of the first row of the first
criterion value with a non-empty result. -/
theorem contactLookupLoop_hit (list : String → List ContactRow)
    (get : Nat → ContactDetail) (pre : List String) (x : String) (rest : List String)
    (r : ContactRow) (others : List ContactRow)
    (hpre : ∀ q ∈ pre, list q = []) (hx : list x = r :: others) :
    contactLookupLoop list get (pre ++ x :: rest) = some (get r.id) := by
  induction pre with
  | nil => simp [contactLookupLoop, hx]
  | cons q pre ih =>
    have hq : list q = [] := hpre q (List.mem_cons_self _ _)
    simp only [List.cons_append, contactLookupLoop, hq]
    exact ih (fun q2 hq2 => hpre q2 (List.mem_cons_of_mem _ hq2))

/-- A lookup loop over all-missing criterion values returns nothing. -/
theorem contactLookupLoop_miss (list : String → List ContactRow)
    (get : Nat → ContactDetail) (xs : List String)
    (h : ∀ q ∈ xs, list q = []) :
    contactLookupLoop list get xs = none := by
  induction xs with
  | nil => rfl
  | cons q xs ih =>
    have hq : list q = [] := h q (List.mem_cons_self _ _)
    simp only [contactLookupLoop, hq]
    exact ih (fun q2 hq2 => h q2 (List.mem_cons_of_mem _ hq2))

/-- C3: contact lookup tries each phone in order (first match wins), then
each email in order (first match wins), then the company-name criterion;
the first successful criterion short-circuits, so a phone match is returned
even when an email match exists. -/
theorem claim_contact_precedence (lk : Lookups) (cfg : Settings) (s : SearchValues) :
    (∀ (pre : List String) (ph : String) (rest : List String)
        (r : ContactRow) (others : List ContactRow),
        s.phones = pre ++ ph :: rest →
        (∀ q ∈ pre, lk.listContactsPhone q = []) →
        lk.listContactsPhone ph = r :: others →
        find_existing_contact lk cfg s = some (lk.getContact r.id))
    ∧ ((∀ q ∈ s.phones, lk.listContactsPhone q = []) →
       ∀ (pre : List String) (em : String) (rest : List String)
          (r : ContactRow) (others : List ContactRow),
          s.emails = pre ++ em :: rest →
          (∀ q ∈ pre, lk.listContactsEmail q = []) →
          lk.listContactsEmail em = r :: others →
          find_existing_contact lk cfg s = some (lk.getContact r.id))
    ∧ ((∀ q ∈ s.phones, lk.listContactsPhone q = []) →
       (∀ q ∈ s.emails, lk.listContactsEmail q = []) →
       find_existing_contact lk cfg s =
         (match s.company with
          | some comp => if comp = "" then none else find_contact_by_company lk cfg comp
          | none => none)) := by
  refine ⟨?_, ?_, ?_⟩
  · intro pre ph rest r others hsplit hpre hx
    unfold find_existing_contact
    rw [hsplit, contactLookupLoop_hit lk.listContactsPhone lk.getContact pre ph rest r others hpre hx]
  · intro hphones pre em rest r others hsplit hpre hx
    unfold find_existing_contact
    rw [contactLookupLoop_miss _ _ _ hphones, hsplit,
      contactLookupLoop_hit lk.listContactsEmail lk.getContact pre em rest r others hpre hx]
  · intro hphones hemails
    unfold find_existing_contact
    rw [contactLookupLoop_miss _ _ _ hphones, contactLookupLoop_miss _ _ _ hemails]

/-- Lookups for the precedence witness: phone `"1"` and email `"e"` both
match different contacts. -/
def demoPrecLookups : Lookups :=
  { demoLookups with
    listContactsPhone := fun p => if p = "1" then [{ id := 10, companyId := none }] else []
    listContactsEmail := fun e => if e = "e" then [{ id := 20, companyId := none }] else [] }

/-- Witness for C3: with a phone match (contact 10) and a differing email
match (contact 20) both present, the phone match is returned. -/
theorem claim_contact_precedence_witness :
    find_existing_contact demoPrecLookups defaultSettings
        { inn := none, company := none, phones := ["1"], emails := ["e"] } =
      some (demoPrecLookups.getContact 10)
    ∧ demoPrecLookups.listContactsEmail "e" = [{ id := 20, companyId := none }] :=
  ⟨(claim_contact_precedence demoPrecLookups defaultSettings
      { inn := none, company := none, phones := ["1"], emails := ["e"] }).1
      [] "1" [] { id := 10, companyId := none } [] rfl (by simp) rfl,
   rfl⟩

/-! ## Claim C4 — contact creation -/

/-- Updating an existing key in place preserves the key set. -/
theorem cHasKey_map_keyfix (d : CDict) (k : String) (v : CVal) (q : String) :
    cHasKey (d.map (fun kv => if kv.1 = k then (k, v) else kv)) q = cHasKey d q := by
  induction d with
  | nil => rfl
  | cons kv d ih =>
    simp only [List.map_cons, cHasKey, List.any_cons] at *
    by_cases h : kv.1 = k
    · simp [h, ih]
    · simp [h, ih]

/-- Key membership after a dict assignment. -/
theorem cHasKey_cSet (d : CDict) (k : String) (v : CVal) (q : String) :
    cHasKey (cSet d k v) q = (cHasKey d q || decide (q = k)) := by
  by_cases h : cHasKey d k = true
  · rw [cSet, if_pos h, cHasKey_map_keyfix]
    by_cases hq : q = k
    · subst hq
      simp [h]
    · simp [hq]
  · rw [cSet, if_neg h]
    simp [cHasKey, List.any_append, eq_comm]

/-- C4: when no existing contact resolves, the payload is built from the
mapping's contact fields with a fallback first phone / first email added
when the corresponding key is absent from the built payload; a contact is
created only when the built payload is non-empty, and an empty payload
yields `(absent, absent)` with no creation call. -/
theorem claim_ensure_contact (env : Env) (cfg : Settings) (m : FormMapping)
    (p : Payload) (s : SearchValues)
    (hfind : find_existing_contact env.lk cfg s = none) :
    (built_contact_fields m p s = [] →
      ensure_contact env cfg m p s = ([], .ok (none, none)))
    ∧ ((ensure_contact env cfg m p s).1.countP isCreateContactAct =
        if (built_contact_fields m p s).isEmpty then 0 else 1)
    ∧ (s.phones ≠ [] → cHasKey (build_contact_payload m p) "PHONE" = false →
        cHasKey (built_contact_fields m p s) "PHONE" = true) := by
  refine ⟨?_, ?_, ?_⟩
  · intro hempty
    simp [ensure_contact, hfind, hempty]
  · by_cases hemp : (built_contact_fields m p s).isEmpty
    · simp [ensure_contact, hfind, hemp]
    · have hemp2 : (built_contact_fields m p s).isEmpty = false := by simpa using hemp
      simp only [ensure_contact, hfind, hemp2, Bool.false_eq_true, if_false]
      cases hc : env.mu.createContact _ with
      | error e => simp [List.countP_cons, isCreateContactAct]
      | ok cid => simp [List.countP_cons, isCreateContactAct]
  · intro hph hnokey
    have hph2 : s.phones.isEmpty = false := by
      cases hs : s.phones with
      | nil => exact absurd hs hph
      | cons a l => rfl
    have key1 : ∀ (d : CDict) (v : JVal),
        cHasKey (assign_contact_field d "PHONE" v) "PHONE" = true := by
      intro d v
      simp [assign_contact_field, (by decide : pyUpper "PHONE" = "PHONE"), cHasKey_cSet]
    have key2 : ∀ (d : CDict) (v : JVal), cHasKey d "PHONE" = true →
        cHasKey (assign_contact_field d "EMAIL" v) "PHONE" = true := by
      intro d v hd
      simp [assign_contact_field, (by decide : pyUpper "EMAIL" = "EMAIL"),
        (by decide : ¬ pyUpper "EMAIL" = "PHONE"), cHasKey_cSet, hd]
    unfold built_contact_fields
    simp only [hph2, hnokey, Bool.not_false, Bool.and_self, if_true]
    split
    · exact key2 _ _ (key1 _ _)
    · exact key1 _ _

/-- Witness for C4: with no CRM match, an empty mapping and an empty
payload, the built payload is empty and `ensure_contact` answers
`(absent, absent)` without a creation call. -/
theorem claim_ensure_contact_witness :
    ensure_contact demoEnv defaultSettings demoMapping []
        { inn := none, company := none, phones := [], emails := [] } =
      ([], .ok (none, none)) :=
  (claim_ensure_contact demoEnv defaultSettings demoMapping []
      { inn := none, company := none, phones := [], emails := [] } rfl).1 rfl

/-! ## Claim C1 — fan-out partial success -/

/-- The upload loop creates no deals and writes no `deal_created` records. -/
theorem uploadLoop_aux (env : Env) (folder : String) (ups : List SavedUpload) :
    createdIds (uploadLoop env folder ups).1 = []
    ∧ logPairs (uploadLoop env folder ups).1 = []
    ∧ (uploadLoop env folder ups).1.countP isCreateDealAct = 0 := by
  induction ups with
  | nil => exact ⟨rfl, rfl, rfl⟩
  | cons u rest ih =>
    simp only [uploadLoop]
    cases h : env.mu.uploadFile folder u.path with
    | error e => exact ⟨rfl, rfl, rfl⟩
    | ok fid =>
      rcases hr : uploadLoop env folder rest with ⟨acts, res⟩
      rw [hr] at ih
      refine ⟨?_, ?_, ?_⟩
      · simpa [createdIds] using ih.1
      · simpa [logPairs] using ih.2.1
      · simpa [List.countP_cons, isCreateDealAct] using ih.2.2

/-- File placement creates no deals and writes no `deal_created` records. -/
theorem upload_files_aux (env : Env) (dealId : Nat) (ups : List SavedUpload)
    (target : Option String) :
    createdIds (upload_files_for_deal env dealId ups target).1 = []
    ∧ logPairs (upload_files_for_deal env dealId ups target).1 = []
    ∧ (upload_files_for_deal env dealId ups target).1.countP isCreateDealAct = 0 := by
  unfold upload_files_for_deal
  split
  · exact ⟨rfl, rfl, rfl⟩
  · split
    · exact ⟨rfl, rfl, rfl⟩
    · split
      · exact ⟨rfl, rfl, rfl⟩
      · split
        · exact ⟨rfl, rfl, rfl⟩
        · split
          · rename_i fol hfolEq scrut acts a hloop
            have := uploadLoop_aux env fol ups
            rw [hloop] at this
            refine ⟨?_, ?_, ?_⟩
            · simpa [createdIds, List.filterMap_append] using this.1
            · simpa [logPairs, List.filterMap_append] using this.2.1
            · simpa [List.countP_append, List.countP_cons, isCreateDealAct] using this.2.2
          · rename_i fol hfolEq scrut acts ids hloop
            have := uploadLoop_aux env fol ups
            rw [hloop] at this
            split
            · refine ⟨?_, ?_, ?_⟩
              · simpa [createdIds, List.filterMap_append] using this.1
              · simpa [logPairs, List.filterMap_append] using this.2.1
              · simpa [List.countP_append, List.countP_cons, isCreateDealAct] using this.2.2
            · refine ⟨?_, ?_, ?_⟩
              · simpa [createdIds, List.filterMap_append] using this.1
              · simpa [logPairs, List.filterMap_append] using this.2.1
              · simpa [List.countP_append, List.countP_cons, isCreateDealAct] using this.2.2

/-- File placement with always-succeeding disk oracles succeeds. -/
theorem upload_files_ok (env : Env) (dealId : Nat) (ups : List SavedUpload)
    (target : Option String) (par : String) (fol uf : String → String → String)
    (hp : env.mu.ensureParent = .ok par)
    (hf : ∀ a b, env.mu.ensureFolder a b = .ok (fol a b))
    (hu : ∀ a b, env.mu.uploadFile a b = .ok (uf a b)) :
    ∃ acts ids, upload_files_for_deal env dealId ups target = (acts, .ok ids) := by
  unfold upload_files_for_deal
  split
  · exact ⟨[], [], rfl⟩
  · split
    · exact ⟨[], [], rfl⟩
    · simp only [hp]
      simp only [hf]
      simp only [uploadLoop_ok env _ uf hu]
      split
      · exact ⟨_, _, rfl⟩
      · exact ⟨_, _, rfl⟩

/-- Either branch of a conditional file placement succeeds under
always-succeeding disk oracles, creating no deal and logging nothing. -/
theorem fileBranch_ok (env : Env) (cond : Bool) (dealId : Nat)
    (ups : List SavedUpload) (target : Option String) (par : String)
    (fol uf : String → String → String)
    (hp : env.mu.ensureParent = .ok par)
    (hf : ∀ a b, env.mu.ensureFolder a b = .ok (fol a b))
    (hu : ∀ a b, env.mu.uploadFile a b = .ok (uf a b)) :
    ∃ acts ids,
      (if cond then upload_files_for_deal env dealId ups target else ([], .ok [])) =
        (acts, .ok ids)
      ∧ createdIds acts = [] ∧ logPairs acts = []
      ∧ acts.countP isCreateDealAct = 0 := by
  cases cond with
  | false => exact ⟨[], [], rfl, rfl, rfl, rfl⟩
  | true =>
    obtain ⟨acts, ids, heq⟩ := upload_files_ok env dealId ups target par fol uf hp hf hu
    have haux := upload_files_aux env dealId ups target
    rw [heq] at haux
    exact ⟨acts, ids, by simpa using heq, haux.1, haux.2.1, haux.2.2⟩

/-- `createdIds` distributes over trace concatenation. -/
theorem createdIds_append (a b : List Act) :
    createdIds (a ++ b) = createdIds a ++ createdIds b := by
  simp [createdIds]

/-- `logPairs` distributes over trace concatenation. -/
theorem logPairs_append (a b : List Act) :
    logPairs (a ++ b) = logPairs a ++ logPairs b := by
  simp [logPairs]

/-- One successful category iteration: the deal is created, its files are
placed, and exactly one `deal_created` audit record naming the category is
emitted. -/
theorem catStep_ok (env : Env) (cfg : Settings) (fk : String) (m : FormMapping)
    (p : Payload) (uploads : List SavedUpload) (ff : SDict) (label : String)
    (cid : Option Nat) (coid : Option JVal) (entry : String) (dealId : Nat)
    (par : String) (fol uf : String → String → String)
    (hp : env.mu.ensureParent = .ok par)
    (hf : ∀ a b, env.mu.ensureFolder a b = .ok (fol a b))
    (hu : ∀ a b, env.mu.uploadFile a b = .ok (uf a b))
    (hcreate : env.mu.createDeal (catDealFields cfg fk m p label cid coid entry) = .ok dealId) :
    ∃ acts, catStep env cfg fk m p uploads ff label cid coid entry = (acts, .ok dealId)
      ∧ createdIds acts = [dealId]
      ∧ logPairs acts = [(dealId, entry)]
      ∧ acts.countP isCreateDealAct = 1 := by
  obtain ⟨a1, i1, e1, c11, c12, c13⟩ :=
    fileBranch_ok env (entry = "Показ" && optTruthy (sFind ff entry)) dealId
      (get_uploads_for_field uploads "illustrations_show") (sFind ff entry) par fol uf hp hf hu
  obtain ⟨a2, i2, e2, c21, c22, c23⟩ :=
    fileBranch_ok env (entry = "Маркет" || entry = "Шоурум") dealId
      (get_uploads_for_field uploads "illustrations_market") (sFind ff "Маркет") par fol uf hp hf hu
  obtain ⟨a3, i3, e3, c31, c32, c33⟩ :=
    fileBranch_ok env true dealId
      (get_uploads_for_field uploads "linesheet") (linesheetField cfg m) par fol uf hp hf hu
  rw [if_pos rfl] at e3
  have hstep : catStep env cfg fk m p uploads ff label cid coid entry =
      ([Act.createDeal (catDealFields cfg fk m p label cid coid entry) (some dealId)] ++
         a1 ++ a2 ++ a3 ++
       [.logDealCreated dealId (catDealFields cfg fk m p label cid coid entry) entry
         ((if i1.isEmpty then [] else [("illustrations_show", i1)]) ++
          (if i2.isEmpty then [] else [("illustrations_market", i2)]) ++
          (if i3.isEmpty then [] else [("linesheet", i3)]))],
       .ok dealId) := by
    simp only [catStep, hcreate, e1, e2, e3]
  refine ⟨_, hstep, ?_, ?_, ?_⟩
  · simp only [createdIds_append, c11, c21, c31]
    rfl
  · simp only [logPairs_append, c12, c22, c32]
    rfl
  · simp only [List.countP_append, c13, c23, c33]
    rfl

/-- C1: when deal creation fails for a category, the remaining categories
are aborted immediately (exactly one more creation attempt than completed
categories), the deals created for the earlier categories remain created,
and each of them has a `deal_created` audit record naming its category —
the partial-success state is fully reflected in the audit log. -/
theorem claim_fanout_partial_success (env : Env) (cfg : Settings) (fk : String)
    (m : FormMapping) (p : Payload) (uploads : List SavedUpload) (ff : SDict)
    (label : String) (cid : Option Nat) (coid : Option JVal)
    (pre : List String) (c : String) (post : List String)
    (par : String) (fol uf : String → String → String) (dealIdOf : String → Nat)
    (hp : env.mu.ensureParent = .ok par)
    (hf : ∀ a b, env.mu.ensureFolder a b = .ok (fol a b))
    (hu : ∀ a b, env.mu.uploadFile a b = .ok (uf a b))
    (hpre : ∀ x ∈ pre,
      env.mu.createDeal (catDealFields cfg fk m p label cid coid x) = .ok (dealIdOf x))
    (hc : env.mu.createDeal (catDealFields cfg fk m p label cid coid c) = .error ()) :
    (fanoutLoop env cfg fk m p uploads ff label cid coid (pre ++ c :: post)).2 = .error ()
    ∧ createdIds (fanoutLoop env cfg fk m p uploads ff label cid coid (pre ++ c :: post)).1
        = pre.map dealIdOf
    ∧ logPairs (fanoutLoop env cfg fk m p uploads ff label cid coid (pre ++ c :: post)).1
        = pre.map (fun x => (dealIdOf x, x))
    ∧ (fanoutLoop env cfg fk m p uploads ff label cid coid (pre ++ c :: post)).1.countP
        isCreateDealAct = pre.length + 1 := by
  induction pre with
  | nil =>
    have hstepc : catStep env cfg fk m p uploads ff label cid coid c =
        ([.createDeal (catDealFields cfg fk m p label cid coid c) none], .error ()) := by
      simp only [catStep, hc]
    simp only [List.nil_append, fanoutLoop, hstepc]
    exact ⟨trivial, rfl, rfl, rfl⟩
  | cons x pre ih =>
    have hx := hpre x (List.mem_cons_self _ _)
    obtain ⟨acts, hstep, hca, hcb, hcc⟩ :=
      catStep_ok env cfg fk m p uploads ff label cid coid x (dealIdOf x) par fol uf hp hf hu hx
    have ih2 := ih (fun q hq => hpre q (List.mem_cons_of_mem _ hq))
    rw [List.cons_append]
    generalize hgen : pre ++ c :: post = rest at ih2 ⊢
    rcases hrec : fanoutLoop env cfg fk m p uploads ff label cid coid rest with ⟨acts2, res2⟩
    rw [hrec] at ih2
    obtain ⟨h1, h2, h3, h4⟩ := ih2
    dsimp only at h1 h2 h3 h4
    cases res2 with
    | ok v => exact absurd h1 (by simp)
    | error e =>
      cases e
      have hgoal : fanoutLoop env cfg fk m p uploads ff label cid coid (x :: rest)
          = (acts ++ acts2, .error ()) := by
        simp only [fanoutLoop, hstep, hrec]
      rw [hgoal]
      dsimp only
      refine ⟨rfl, ?_, ?_, ?_⟩
      · rw [createdIds_append, hca, h2]
        rfl
      · rw [logPairs_append, hcb, h3]
        rfl
      · rw [List.countP_append, hcc, h4]
        simp only [List.length_cons]
        omega

/-- Mutation oracles for the partial-success witness: only the deal titled
for the `Показ` category can be created; every other creation fails. -/
def demoFanoutMuts : Muts :=
  { demoMuts with
    createDeal := fun df =>
      if pyStr (pyGet df "TITLE") = "Заявка: L — Показ" then .ok 1 else .error () }

/-- The environment of the partial-success witness. -/
def demoFanoutEnv : Env := { lk := demoLookups, mu := demoFanoutMuts }

/-- Witness for C1: with categories `Показ`, `Маркет`, `Шоурум` and deal
creation failing at `Маркет`, the run aborts, deal 1 (for `Показ`) stays
created with its audit record, and exactly two creations were attempted. -/
theorem claim_fanout_partial_success_witness :
    (fanoutLoop demoFanoutEnv defaultSettings "fk" demoMapping [] [] [] "L" none none
        ["Показ", "Маркет", "Шоурум"]).2 = .error ()
    ∧ createdIds (fanoutLoop demoFanoutEnv defaultSettings "fk" demoMapping [] [] [] "L"
        none none ["Показ", "Маркет", "Шоурум"]).1 = [1]
    ∧ logPairs (fanoutLoop demoFanoutEnv defaultSettings "fk" demoMapping [] [] [] "L"
        none none ["Показ", "Маркет", "Шоурум"]).1 = [(1, "Показ")]
    ∧ (fanoutLoop demoFanoutEnv defaultSettings "fk" demoMapping [] [] [] "L"
        none none ["Показ", "Маркет", "Шоурум"]).1.countP isCreateDealAct = 2 :=
  claim_fanout_partial_success demoFanoutEnv defaultSettings "fk" demoMapping [] [] [] "L"
    none none ["Показ"] "Маркет" ["Шоурум"] "P" (fun a b => a ++ "/" ++ b)
    (fun _ b => "id_" ++ b) (fun _ => 1) rfl (fun _ _ => rfl) (fun _ _ => rfl)
    (by
      intro x hx
      rw [List.mem_singleton] at hx
      subst hx
      rfl)
    rfl

/-! ## Claim C9 — base-deal transition -/

/-- The upload loop emits no base-transition audit record. -/
theorem uploadLoop_no_base (env : Env) (folder : String) (ups : List SavedUpload) :
    (uploadLoop env folder ups).1.countP isBaseLogAct = 0 := by
  induction ups with
  | nil => rfl
  | cons u rest ih =>
    simp only [uploadLoop]
    cases h : env.mu.uploadFile folder u.path with
    | error e => rfl
    | ok fid =>
      rcases hr : uploadLoop env folder rest with ⟨acts, res⟩
      rw [hr] at ih
      simpa [List.countP_cons, isBaseLogAct] using ih

/-- File placement emits no base-transition audit record. -/
theorem upload_files_no_base (env : Env) (dealId : Nat) (ups : List SavedUpload)
    (target : Option String) :
    (upload_files_for_deal env dealId ups target).1.countP isBaseLogAct = 0 := by
  unfold upload_files_for_deal
  split
  · rfl
  · split
    · rfl
    · split
      · rfl
      · split
        · rfl
        · split
          · rename_i fol hfolEq scrut acts a hloop
            have := uploadLoop_no_base env fol ups
            rw [hloop] at this
            simpa [List.countP_append, List.countP_cons, isBaseLogAct] using this
          · rename_i fol hfolEq scrut acts ids hloop
            have := uploadLoop_no_base env fol ups
            rw [hloop] at this
            split
            · simpa [List.countP_append, List.countP_cons, isBaseLogAct] using this
            · simpa [List.countP_append, List.countP_cons, isBaseLogAct] using this

/-- Either branch of a conditional file placement emits no base-transition
audit record. -/
theorem fileBranch_no_base (env : Env) (cond : Bool) (dealId : Nat)
    (ups : List SavedUpload) (target : Option String) :
    ((if cond then upload_files_for_deal env dealId ups target
      else ([], .ok [])) : List Act × Except Unit (List String)).1.countP isBaseLogAct = 0 := by
  cases cond with
  | false => rfl
  | true => exact upload_files_no_base env dealId ups target

/-- One category iteration emits no base-transition audit record. -/
theorem catStep_no_base (env : Env) (cfg : Settings) (fk : String) (m : FormMapping)
    (p : Payload) (uploads : List SavedUpload) (ff : SDict) (label : String)
    (cid : Option Nat) (coid : Option JVal) (entry : String) :
    (catStep env cfg fk m p uploads ff label cid coid entry).1.countP isBaseLogAct = 0 := by
  cases hcr : env.mu.createDeal (catDealFields cfg fk m p label cid coid entry) with
  | error e =>
    have heq : catStep env cfg fk m p uploads ff label cid coid entry =
        ([.createDeal (catDealFields cfg fk m p label cid coid entry) none], .error ()) := by
      simp only [catStep, hcr]
    rw [heq]
    rfl
  | ok dealId =>
    rcases h1 : (if (decide (entry = "Показ") && optTruthy (sFind ff entry)) = true then
        upload_files_for_deal env dealId (get_uploads_for_field uploads "illustrations_show")
          (sFind ff entry)
      else ([], .ok [])) with ⟨aShow, rShow⟩
    have c1 : aShow.countP isBaseLogAct = 0 := by
      have := fileBranch_no_base env (decide (entry = "Показ") && optTruthy (sFind ff entry))
        dealId (get_uploads_for_field uploads "illustrations_show") (sFind ff entry)
      rw [h1] at this
      exact this
    cases rShow with
    | error e =>
      have heq : catStep env cfg fk m p uploads ff label cid coid entry =
          ([Act.createDeal (catDealFields cfg fk m p label cid coid entry) (some dealId)] ++
             aShow, .error ()) := by
        simp only [catStep, hcr, h1]
      rw [heq]
      simp only [List.countP_append, c1]
      rfl
    | ok showIds =>
      rcases h2 : (if (decide (entry = "Маркет") || decide (entry = "Шоурум")) = true then
          upload_files_for_deal env dealId (get_uploads_for_field uploads "illustrations_market")
            (sFind ff "Маркет")
        else ([], .ok [])) with ⟨aMarket, rMarket⟩
      have c2 : aMarket.countP isBaseLogAct = 0 := by
        have := fileBranch_no_base env (decide (entry = "Маркет") || decide (entry = "Шоурум"))
          dealId (get_uploads_for_field uploads "illustrations_market") (sFind ff "Маркет")
        rw [h2] at this
        exact this
      cases rMarket with
      | error e =>
        have heq : catStep env cfg fk m p uploads ff label cid coid entry =
            ([Act.createDeal (catDealFields cfg fk m p label cid coid entry) (some dealId)] ++
               aShow ++ aMarket, .error ()) := by
          simp only [catStep, hcr, h1, h2]
        rw [heq]
        simp only [List.countP_append, c1, c2]
        rfl
      | ok marketIds =>
        rcases h3 : upload_files_for_deal env dealId (get_uploads_for_field uploads "linesheet")
            (linesheetField cfg m) with ⟨aLs, rLs⟩
        have c3 : aLs.countP isBaseLogAct = 0 := by
          have := upload_files_no_base env dealId (get_uploads_for_field uploads "linesheet")
            (linesheetField cfg m)
          rw [h3] at this
          exact this
        cases rLs with
        | error e =>
          have heq : catStep env cfg fk m p uploads ff label cid coid entry =
              ([Act.createDeal (catDealFields cfg fk m p label cid coid entry) (some dealId)] ++
                 aShow ++ aMarket ++ aLs, .error ()) := by
            simp only [catStep, hcr, h1, h2, h3]
          rw [heq]
          simp only [List.countP_append, c1, c2, c3]
          rfl
        | ok lsIds =>
          have heq : catStep env cfg fk m p uploads ff label cid coid entry =
              ([Act.createDeal (catDealFields cfg fk m p label cid coid entry) (some dealId)] ++
                 aShow ++ aMarket ++ aLs ++
               [.logDealCreated dealId (catDealFields cfg fk m p label cid coid entry) entry
                 ((if showIds.isEmpty then [] else [("illustrations_show", showIds)]) ++
                  (if marketIds.isEmpty then [] else [("illustrations_market", marketIds)]) ++
                  (if lsIds.isEmpty then [] else [("linesheet", lsIds)]))],
               .ok dealId) := by
            simp only [catStep, hcr, h1, h2, h3]
          rw [heq]
          simp only [List.countP_append, c1, c2, c3]
          rfl

/-- The whole category fan-out emits no base-transition audit record. -/
theorem fanoutLoop_no_base (env : Env) (cfg : Settings) (fk : String) (m : FormMapping)
    (p : Payload) (uploads : List SavedUpload) (ff : SDict) (label : String)
    (cid : Option Nat) (coid : Option JVal) (cats : List String) :
    (fanoutLoop env cfg fk m p uploads ff label cid coid cats).1.countP isBaseLogAct = 0 := by
  induction cats with
  | nil => rfl
  | cons entry rest ih =>
    simp only [fanoutLoop]
    rcases hstep : catStep env cfg fk m p uploads ff label cid coid entry with ⟨acts, res⟩
    have c0 : acts.countP isBaseLogAct = 0 := by
      have := catStep_no_base env cfg fk m p uploads ff label cid coid entry
      rw [hstep] at this
      exact this
    cases res with
    | error e => exact c0
    | ok dealId =>
      rcases hrec : fanoutLoop env cfg fk m p uploads ff label cid coid rest with ⟨acts2, res2⟩
      have crec : acts2.countP isBaseLogAct = 0 := by
        have := ih
        rw [hrec] at this
        exact this
      simp only [List.countP_append, c0, crec]

/-- Contact resolution or creation emits no base-transition audit record. -/
theorem ensure_contact_no_base (env : Env) (cfg : Settings) (m : FormMapping)
    (p : Payload) (s : SearchValues) :
    (ensure_contact env cfg m p s).1.countP isBaseLogAct = 0 := by
  unfold ensure_contact
  split
  · rfl
  · dsimp only
    split
    · rfl
    · split
      · rfl
      · rfl

/-- The base block emits at most one base-transition audit record. -/
theorem baseSegment_le_one (lk : Lookups) (cfg : Settings) (s : SearchValues) :
    (baseSegment lk cfg s).countP isBaseLogAct ≤ 1 := by
  unfold baseSegment
  split
  · simp [List.countP_cons, isBaseLogAct]
  · simp

/-- The audit-visible trace of a primary submission always decomposes into
the base block followed by base-free actions. -/
theorem handle_primary_decompose (env : Env) (cfg : Settings) (fk : String)
    (m : FormMapping) (p : Payload) (uploads : List SavedUpload) :
    ∃ rest, (handle_primary_form env cfg fk m p uploads).1 =
        baseSegment env.lk cfg (build_search_values m p) ++ rest
      ∧ rest.countP isBaseLogAct = 0 := by
  unfold handle_primary_form
  dsimp only
  split
  · exact ⟨[.logNoParticipation], rfl, rfl⟩
  · rcases hens : ensure_contact env cfg m p (build_search_values m p) with ⟨acts1, res1⟩
    have c1 : acts1.countP isBaseLogAct = 0 := by
      have := ensure_contact_no_base env cfg m p (build_search_values m p)
      rw [hens] at this
      exact this
    cases res1 with
    | error e => exact ⟨acts1, rfl, c1⟩
    | ok contactPair =>
      rcases contactPair with ⟨contactId, companyId⟩
      dsimp only
      refine ⟨acts1 ++ (fanoutLoop env cfg fk m p uploads (file_fields_merged cfg m)
          (company_label (build_search_values m p) p) contactId companyId
          (extract_participation_types cfg m p)).1, ?_, ?_⟩
      · rw [List.append_assoc]
      · simp only [List.countP_append, c1, fanoutLoop_no_base]

/-- C9: the base-deal stage transition with its single audit record fires
at most once per primary submission, as a prefix of the trace determined
by the read-only lookups alone — independent of how many participation
deals are created later and of whether the contact creation, deal creation
or file placement mutations later fail. -/
theorem claim_base_transition_once (env : Env) (cfg : Settings) (fk : String)
    (m : FormMapping) (p : Payload) (uploads : List SavedUpload) :
    (∃ rest, (handle_primary_form env cfg fk m p uploads).1 =
        baseSegment env.lk cfg (build_search_values m p) ++ rest
      ∧ rest.countP isBaseLogAct = 0)
    ∧ (handle_primary_form env cfg fk m p uploads).1.countP isBaseLogAct ≤ 1
    ∧ ∀ mu2 : Muts, ∃ rest2,
        (handle_primary_form { lk := env.lk, mu := mu2 } cfg fk m p uploads).1 =
          baseSegment env.lk cfg (build_search_values m p) ++ rest2
        ∧ rest2.countP isBaseLogAct = 0 := by
  refine ⟨handle_primary_decompose env cfg fk m p uploads, ?_, ?_⟩
  · obtain ⟨rest, heq, hz⟩ := handle_primary_decompose env cfg fk m p uploads
    rw [heq, List.countP_append, hz]
    have := baseSegment_le_one env.lk cfg (build_search_values m p)
    omega
  · intro mu2
    exact handle_primary_decompose { lk := env.lk, mu := mu2 } cfg fk m p uploads

/-! ## Claim C10 — `Шоурум` receives the `Маркет` file placement -/

/-- The trace of one fully successful category iteration, given the
outcomes of its three file-placement branches. -/
theorem catStep_trace (env : Env) (cfg : Settings) (fk : String) (m : FormMapping)
    (p : Payload) (uploads : List SavedUpload) (ff : SDict) (label : String)
    (cid : Option Nat) (coid : Option JVal) (entry : String) (dealId : Nat)
    (aS : List Act) (sIds : List String) (aM : List Act) (mIds : List String)
    (aL : List Act) (lIds : List String)
    (hcreate : env.mu.createDeal (catDealFields cfg fk m p label cid coid entry) = .ok dealId)
    (h1 : (if (decide (entry = "Показ") && optTruthy (sFind ff entry)) = true then
        upload_files_for_deal env dealId (get_uploads_for_field uploads "illustrations_show")
          (sFind ff entry)
      else ([], .ok [])) = (aS, .ok sIds))
    (h2 : (if (decide (entry = "Маркет") || decide (entry = "Шоурум")) = true then
        upload_files_for_deal env dealId (get_uploads_for_field uploads "illustrations_market")
          (sFind ff "Маркет")
      else ([], .ok [])) = (aM, .ok mIds))
    (h3 : upload_files_for_deal env dealId (get_uploads_for_field uploads "linesheet")
        (linesheetField cfg m) = (aL, .ok lIds)) :
    catStep env cfg fk m p uploads ff label cid coid entry =
      ([Act.createDeal (catDealFields cfg fk m p label cid coid entry) (some dealId)] ++
         aS ++ aM ++ aL ++
       [.logDealCreated dealId (catDealFields cfg fk m p label cid coid entry) entry
         ((if sIds.isEmpty then [] else [("illustrations_show", sIds)]) ++
          (if mIds.isEmpty then [] else [("illustrations_market", mIds)]) ++
          (if lIds.isEmpty then [] else [("linesheet", lIds)]))],
       .ok dealId) := by
  simp only [catStep, hcreate, h1, h2, h3]

/-- C10: for the `Шоурум` category — which has no file-field mapping entry
of its own — the created deal still receives the placement of the
`illustrations_market` uploads into the `Маркет` category's configured
target field: every market upload is uploaded and the deal update writes
their ids to the `Маркет` field. -/
theorem claim_showroom_market_files (env : Env) (cfg : Settings) (fk : String)
    (m : FormMapping) (p : Payload) (uploads : List SavedUpload) (ff : SDict)
    (label : String) (cid : Option Nat) (coid : Option JVal)
    (dealId : Nat) (mf par : String) (fol uf : String → String → String)
    (hnoshow : sFind ff "Шоурум" = none)
    (hmf : sFind ff "Маркет" = some mf) (hmfne : mf ≠ "")
    (hups : get_uploads_for_field uploads "illustrations_market" ≠ [])
    (hp : env.mu.ensureParent = .ok par)
    (hf : ∀ a b, env.mu.ensureFolder a b = .ok (fol a b))
    (hu : ∀ a b, env.mu.uploadFile a b = .ok (uf a b))
    (hcreate : env.mu.createDeal (catDealFields cfg fk m p label cid coid "Шоурум") =
      .ok dealId) :
    (catStep env cfg fk m p uploads ff label cid coid "Шоурум").2 = .ok dealId
    ∧ Act.updateDeal dealId
        [(mf, .l (((get_uploads_for_field uploads "illustrations_market").map
            (fun u => uf (fol par ("deal_" ++ toString dealId)) u.path)).map JVal.s))] ∈
        (catStep env cfg fk m p uploads ff label cid coid "Шоурум").1
    ∧ ∀ u ∈ get_uploads_for_field uploads "illustrations_market",
        Act.uploadFile u.path (some (uf (fol par ("deal_" ++ toString dealId)) u.path)) ∈
          (catStep env cfg fk m p uploads ff label cid coid "Шоурум").1 := by
  have hex := upload_files_exact env dealId (get_uploads_for_field uploads "illustrations_market")
    mf par fol uf hp hf hu hups hmfne
  have hcond1 : (decide (("Шоурум" : String) = "Показ") && optTruthy (sFind ff "Шоурум")) = false := by
    rw [hnoshow]
    decide
  have h1 : (if (decide (("Шоурум" : String) = "Показ") && optTruthy (sFind ff "Шоурум")) = true then
      upload_files_for_deal env dealId (get_uploads_for_field uploads "illustrations_show")
        (sFind ff "Шоурум")
    else (([], .ok []) : List Act × Except Unit (List String))) = ([], .ok []) := by
    rw [if_neg]
    rw [hcond1]
    exact Bool.false_ne_true
  have hcond2 : (decide (("Шоурум" : String) = "Маркет") || decide (("Шоурум" : String) = "Шоурум")) = true := by
    decide
  have h2 : (if (decide (("Шоурум" : String) = "Маркет") || decide (("Шоурум" : String) = "Шоурум")) = true then
      upload_files_for_deal env dealId (get_uploads_for_field uploads "illustrations_market")
        (sFind ff "Маркет")
    else (([], .ok []) : List Act × Except Unit (List String))) =
      upload_files_for_deal env dealId (get_uploads_for_field uploads "illustrations_market")
        (some mf) := by
    rw [if_pos hcond2, hmf]
  obtain ⟨aL, lIds, e3⟩ := upload_files_ok env dealId (get_uploads_for_field uploads "linesheet")
    (linesheetField cfg m) par fol uf hp hf hu
  have hstep := catStep_trace env cfg fk m p uploads ff label cid coid "Шоурум" dealId
    [] [] _ _ aL lIds hcreate h1 (h2.trans hex) e3
  rw [hstep]
  refine ⟨rfl, ?_, ?_⟩
  · simp [List.mem_append]
  · intro u hu2
    have hmem : Act.uploadFile u.path (some (uf (fol par ("deal_" ++ toString dealId)) u.path)) ∈
        List.map (fun u => Act.uploadFile u.path
          (some (uf (fol par ("deal_" ++ toString dealId)) u.path)))
          (get_uploads_for_field uploads "illustrations_market") :=
      List.mem_map_of_mem _ hu2
    simp only [List.mem_append]
    tauto

/-- Witness for C10: one staged market upload, a file-field map with only a
`Маркет` entry, and the `Шоурум` category: the created deal 50 receives the
market upload and the update writes its id to the `Маркет` target field. -/
theorem claim_showroom_market_files_witness :
    (catStep demoEnv defaultSettings "fk" demoMapping []
        [{ field := "illustrations_market", filename := "img.jpg", path := "pm" }]
        [("Маркет", "MF")] "L" none none "Шоурум").2 = .ok 50
    ∧ Act.updateDeal 50 [("MF", .l [.s "id_pm"])] ∈
        (catStep demoEnv defaultSettings "fk" demoMapping []
          [{ field := "illustrations_market", filename := "img.jpg", path := "pm" }]
          [("Маркет", "MF")] "L" none none "Шоурум").1 :=
  ⟨(claim_showroom_market_files demoEnv defaultSettings "fk" demoMapping []
      [{ field := "illustrations_market", filename := "img.jpg", path := "pm" }]
      [("Маркет", "MF")] "L" none none 50 "MF" "P" (fun a b => a ++ "/" ++ b)
      (fun _ b => "id_" ++ b) rfl rfl (by decide) (List.cons_ne_nil _ _) rfl
      (fun _ _ => rfl) (fun _ _ => rfl) rfl).1,
   (claim_showroom_market_files demoEnv defaultSettings "fk" demoMapping []
      [{ field := "illustrations_market", filename := "img.jpg", path := "pm" }]
      [("Маркет", "MF")] "L" none none 50 "MF" "P" (fun a b => a ++ "/" ++ b)
      (fun _ b => "id_" ++ b) rfl rfl (by decide) (List.cons_ne_nil _ _) rfl
      (fun _ _ => rfl) (fun _ _ => rfl) rfl).2.1⟩

/-! ## Claim C6 — accepted mapping-file shapes -/

/-- Did the parse succeed? -/
def exceptOk {α : Type} (e : Except String α) : Bool :=
  match e with
  | .ok _ => true
  | .error _ => false

/-- The flat legacy shape in the spec's words: a non-empty object whose
values are all strings. -/
def specFlatShape : JVal → Bool
  | .obj kvs => !kvs.isEmpty && kvs.all (fun kv => isStrJ kv.2)
  | _ => false

/-- An object carrying at least one of the spec's structured keys
(`deal_fields`/`contact_fields`/`kind`/`participation_field`/
`file_fields`/`search`). -/
def specStructuredKeys : JVal → Bool
  | .obj kvs =>
    ["deal_fields", "contact_fields", "kind", "participation_field",
     "file_fields", "search"].any (fun k => hasKey kvs k)
  | _ => false

/-- Counterexample for C6: the entry `{"foo": 42}` is neither a flat
string-map nor a structured object carrying any of the six keys, yet the
parser accepts it (with all-default fields) instead of raising a
configuration error. -/
theorem claim_mapping_shapes_counterexample :
    exceptOk (parse_form defaultSettings "f" (.obj [("foo", .i 42)])) = true
    ∧ specFlatShape (.obj [("foo", .i 42)]) = false
    ∧ specStructuredKeys (.obj [("foo", .i 42)]) = false :=
  ⟨rfl, rfl, rfl⟩

/-- A search-key entry the parser accepts: `None`, a string, or an
iterable (list or object); numbers, booleans and residual objects raise. -/
def seqShapeOk : JVal → Bool
  | .i _ => false
  | .b _ => false
  | .other => false
  | _ => true

/-- The shapes `_parse_form` actually accepts: any object — flat
string-maps as legacy, anything else as structured with all six keys
optional — provided the resolved `deal_fields`/`fields` value is an
object, truthy `contact_fields`/`contact` and `file_fields`/`attachments`
values are objects, and the `search` entry, when truthy, is an object with
well-shaped key entries. -/
def acceptShape (raw : JVal) : Bool :=
  match raw with
  | .obj kvs =>
    if !kvs.isEmpty && kvs.all (fun kv => isStrJ kv.2) then true
    else
      isObjJ (jor (pyGet kvs "deal_fields") (jor (pyGet kvs "fields") (.obj []))) &&
      !(jTruthy (jor (pyGet kvs "contact_fields") (jor (pyGet kvs "contact") (.obj []))) &&
        !isObjJ (jor (pyGet kvs "contact_fields") (jor (pyGet kvs "contact") (.obj [])))) &&
      !(jTruthy (jor (pyGet kvs "file_fields") (jor (pyGet kvs "attachments") (.obj []))) &&
        !isObjJ (jor (pyGet kvs "file_fields") (jor (pyGet kvs "attachments") (.obj [])))) &&
      (match jor (pyGet kvs "search") (.obj []) with
       | .obj skvs =>
         seqShapeOk (pyGet skvs "inn") && seqShapeOk (pyGet skvs "company") &&
         seqShapeOk (pyGet skvs "phone") && seqShapeOk (pyGet skvs "email")
       | _ => false)
  | _ => false

/-- A search-key entry parses exactly when its shape is accepted. -/
theorem norm_seq_ok (v : JVal) : exceptOk (normalize_sequence v) = seqShapeOk v := by
  cases v <;> rfl

/-- `_build_search_fields` succeeds exactly when the search configuration
is an object with well-shaped entries. -/
theorem build_search_ok (cfg : Settings) (m : FormMapping) (config : JVal) :
    exceptOk (build_search_fields cfg m config) =
      (match config with
       | .obj skvs =>
         seqShapeOk (pyGet skvs "inn") && seqShapeOk (pyGet skvs "company") &&
         seqShapeOk (pyGet skvs "phone") && seqShapeOk (pyGet skvs "email")
       | _ => false) := by
  cases config with
  | obj skvs =>
    simp only [build_search_fields, cfgGetJ]
    cases h1 : normalize_sequence (pyGet skvs "inn") with
    | error e =>
      have := norm_seq_ok (pyGet skvs "inn")
      rw [h1] at this
      rw [← this]
      rfl
    | ok ks1 =>
      have e1 := norm_seq_ok (pyGet skvs "inn")
      rw [h1] at e1
      rw [← e1]
      cases h2 : normalize_sequence (pyGet skvs "company") with
      | error e =>
        have := norm_seq_ok (pyGet skvs "company")
        rw [h2] at this
        rw [← this]
        rfl
      | ok ks2 =>
        have e2 := norm_seq_ok (pyGet skvs "company")
        rw [h2] at e2
        rw [← e2]
        cases h3 : normalize_sequence (pyGet skvs "phone") with
        | error e =>
          have := norm_seq_ok (pyGet skvs "phone")
          rw [h3] at this
          rw [← this]
          rfl
        | ok ks3 =>
          have e3 := norm_seq_ok (pyGet skvs "phone")
          rw [h3] at e3
          rw [← e3]
          cases h4 : normalize_sequence (pyGet skvs "email") with
          | error e =>
            have := norm_seq_ok (pyGet skvs "email")
            rw [h4] at this
            rw [← this]
            rfl
          | ok ks4 =>
            have e4 := norm_seq_ok (pyGet skvs "email")
            rw [h4] at e4
            rw [← e4]
            rfl
  | null => rfl
  | s v => rfl
  | i n => rfl
  | b v => rfl
  | l xs => rfl
  | other => rfl

/-- Mapping the success value does not change whether a parse succeeded. -/
theorem exceptOk_map {α β : Type} (f : α → β) (e : Except String α) :
    exceptOk (e.map f) = exceptOk e := by
  cases e <;> rfl

/-- C6 amended: every form entry must be a JSON object; a non-empty object
with only string values parses as the legacy flat map, and any other
object parses as the structured shape with all six keys optional — a fatal
configuration error is raised exactly when the entry is not an object,
when the resolved `deal_fields`/`fields` value is a truthy non-object,
when `contact_fields`/`contact` or `file_fields`/`attachments` is a truthy
non-object, or when the `search` configuration is a truthy non-object or
contains a number/boolean/object-like key entry. -/
theorem claim_mapping_shapes_amended (cfg : Settings) (name : String) (raw : JVal) :
    exceptOk (parse_form cfg name raw) = acceptShape raw := by
  cases raw with
  | obj kvs =>
    by_cases hflat : (!kvs.isEmpty && kvs.all fun kv => isStrJ kv.2) = true
    · simp only [parse_form, acceptShape, hflat, if_true, exceptOk_map]
      rw [build_search_ok]
      rfl
    · have hflat2 : (!kvs.isEmpty && kvs.all fun kv => isStrJ kv.2) = false := by
        simpa using hflat
      simp only [parse_form, acceptShape, hflat2, Bool.false_eq_true, if_false]
      cases hdr : jor (pyGet kvs "deal_fields") (jor (pyGet kvs "fields") (.obj [])) with
      | obj dfkvs =>
        dsimp only
        rw [show isObjJ (JVal.obj dfkvs) = true from rfl]
        simp only [Bool.true_and]
        split
        · rename_i hbad
          rw [hbad]
          simp only [Bool.not_true, Bool.false_and]
          rfl
        · rename_i hok
          have hok2 : (jTruthy (jor (pyGet kvs "contact_fields") (jor (pyGet kvs "contact") (.obj []))) &&
              !isObjJ (jor (pyGet kvs "contact_fields") (jor (pyGet kvs "contact") (.obj [])))) = false := by
            simp at hok ⊢
            exact hok
          rw [hok2]
          simp only [Bool.not_false, Bool.true_and]
          split
          · rename_i hbadf
            rw [hbadf]
            simp only [Bool.not_true, Bool.false_and]
            rfl
          · rename_i hokf
            have hokf2 : (jTruthy (jor (pyGet kvs "file_fields") (jor (pyGet kvs "attachments") (.obj []))) &&
                !isObjJ (jor (pyGet kvs "file_fields") (jor (pyGet kvs "attachments") (.obj [])))) = false := by
              simp at hokf ⊢
              exact hokf
            rw [exceptOk_map, build_search_ok, hokf2]
            simp only [Bool.not_false, Bool.true_and]
      | null => rfl
      | s v => rfl
      | i n => rfl
      | b v => rfl
      | l xs => rfl
      | other => rfl
  | null => rfl
  | s v => rfl
  | i n => rfl
  | b v => rfl
  | l xs => rfl
  | other => rfl
